import Mathlib

/-!
# geophoto: a shallow embedding of `geophoto.go`

The Go package reads six GPS tags out of a photo's EXIF data (`GeoPhoto`),
renders the position as decimal degrees (`sexToDec`, `StringDegrees`),
computes an epoch timestamp (`Unix`) and aggregates a directory tree into a
map keyed by that timestamp (`walk`, `DirGeoPhotoData`).

Conventions of the embedding:

* a Go pointer that may be `nil` is an `Option`;
* a Go function that can panic returns an `Option`, `none` being the panic;
* `*big.Rat` values are rationals `ℚ` (Mathlib keeps them in lowest terms with a
  positive denominator, as `math/big` does);
* Go `int`/`int64`/`uint64` are integers reduced by `wrapI64`/`wrapU64`
  (a 64-bit platform is assumed, so `int` is `int64`);
* Go strings are Lean strings; library routines that scan them work on the
  list of characters.
-/

namespace Geophoto

/-! ## Library values used by the package -/

/-- A Go `error` value; only its presence matters to this package. -/
abbrev Error := String

/-- The value carried by a `*tiff.Tag`, by format. Rational tags keep their raw
numerator/denominator pairs, string tags their text; the remaining
formats (integers, floats, undefined bytes) carry nothing this package reads. -/
inductive Tag where
  | ratVal (vals : List (Int × Int))
  | stringVal (s : String)
  | otherVal
  deriving DecidableEq, Repr

/-- The method `(*tiff.Tag).Rat(i)`: the `i`-th component as a `*big.Rat`, freshly
allocated by `big.NewRat`. It panics when the tag is not rational, has no `i`-th
component, or the component's denominator is zero. -/
def Tag.Rat (t : Tag) (i : Nat) : Option ℚ :=
  match t with
  | .ratVal vals =>
    match vals.get? i with
    | some (n, d) => if d = 0 then none else some ((n : ℚ) / (d : ℚ))
    | none => none
  | _ => none

/-- The method `(*tiff.Tag).StringVal()`: the text of a string tag; it panics on any other
format. -/
def Tag.StringVal (t : Tag) : Option String :=
  match t with
  | .stringVal s => some s
  | _ => none

/-- The struct `GeoPhoto`: six `*tiff.Tag` fields, each possibly `nil`. -/
structure GeoPhoto where
  GPSLatitude : Option Tag
  GPSLatitudeRef : Option Tag
  GPSLongitude : Option Tag
  GPSLongitudeRef : Option Tag
  GPSTimeStamp : Option Tag
  GPSDateStamp : Option Tag
  deriving DecidableEq, Repr

/-- The zero value `GeoPhoto{}`. -/
def GeoPhoto.zero : GeoPhoto := ⟨none, none, none, none, none, none⟩

/-! ## `sexToDec` -/

/-- The three `*big.Rat` arguments of `sexToDec` after the call, which updates them in
place: `min` becomes `min/60`, `sec` becomes `sec/3600`, and `deg` receives the sum and,
for direction "S" or "W", the negation. The three pointers are distinct objects (both call
sites pass fresh results of `Rat(i)`). -/
def sexToDecState (deg min sec : ℚ) (dir : String) : ℚ × ℚ × ℚ :=
  let min1 := min / 60
  let deg1 := deg + min1
  let sec1 := sec / 3600
  let deg2 := deg1 + sec1
  let deg3 := if dir = "S" ∨ dir = "W" then -deg2 else deg2
  (deg3, min1, sec1)

/-- The function `sexToDec`: the returned pointer is `deg`. -/
def sexToDec (deg min sec : ℚ) (dir : String) : ℚ :=
  (sexToDecState deg min sec dir).1

/-! ## `(*big.Rat).FloatString` -/

/-- Decimal digits of a natural number, as `nat.utoa(10)` writes them ("0" for zero). -/
def utoa (n : Nat) : List Char := Nat.toDigits 10 n

/-- The characters written by `(*big.Rat).FloatString(prec)` for the rational with
numerator `num` and denominator `den` (lowest terms, `den > 0`). An integer prints its signed
numerator followed by `prec` zeros. Otherwise the absolute numerator is divided by the
denominator, the remainder scaled by `10^prec` and divided again, the quotient rounded up
when twice the last remainder reaches the denominator (carrying into the integer part), and
the fraction is left-padded with zeros to `prec` digits. -/
def floatCharsOf (num : Int) (den : Nat) (prec : Nat) : List Char :=
  let a := num.natAbs
  let b := den
  if b = 1 then
    (if num < 0 then ['-'] else []) ++ utoa a ++
      (if 0 < prec then '.' :: List.replicate prec '0' else [])
  else
    let q := a / b
    let r := a % b
    let p := 10 ^ prec
    let r1 := (r * p) / b
    let r2 := (r * p) % b
    let up := decide (b ≤ r2 + r2)
    let carry := up && decide (p ≤ r1 + 1)
    let rr := if up then (if carry then r1 + 1 - p else r1 + 1) else r1
    let qq := if carry then q + 1 else q
    let rs := utoa rr
    (if num < 0 then ['-'] else []) ++ utoa qq ++
      (if 0 < prec then '.' :: (List.replicate (prec - rs.length) '0' ++ rs) else [])

/-- The characters of `FloatString`, read off the normalised numerator and denominator. -/
def floatChars (x : ℚ) (prec : Nat) : List Char := floatCharsOf x.num x.den prec

/-- The method `(*big.Rat).FloatString(prec)`, for `prec ≥ 0`. -/
def FloatString (x : ℚ) (prec : Nat) : String := String.mk (floatChars x prec)

/-! ## `StringDegrees` -/

/-- The method `(*GeoPhoto).StringDegrees`. A `nil` coordinate or reference tag, a tag of the
wrong format, a missing component or a zero denominator makes it panic. -/
def StringDegrees (geo : GeoPhoto) : Option String := do
  let latTag ← geo.GPSLatitude
  let lat0 ← latTag.Rat 0
  let lat1 ← latTag.Rat 1
  let lat2 ← latTag.Rat 2
  let latRefTag ← geo.GPSLatitudeRef
  let latRef ← latRefTag.StringVal
  let latitude := sexToDec lat0 lat1 lat2 latRef
  let lonTag ← geo.GPSLongitude
  let lon0 ← lonTag.Rat 0
  let lon1 ← lonTag.Rat 1
  let lon2 ← lonTag.Rat 2
  let lonRefTag ← geo.GPSLongitudeRef
  let lonRef ← lonRefTag.StringVal
  let longitude := sexToDec lon0 lon1 lon2 lonRef
  pure (FloatString latitude 6 ++ "," ++ FloatString longitude 6)

/-! ## `StreetViewUrl` -/

/-- The function `fmt.Sprintf` for a format whose only verbs are `%s` and `%%`, with string
arguments: each `%s` is replaced by the next argument (or by the marker Go prints when none
is left) and every other character is copied. -/
def Sprintf : List Char → List String → List Char
  | [], _ => []
  | '%' :: 's' :: rest, a :: args => a.data ++ Sprintf rest args
  | '%' :: 's' :: rest, [] => "%!s(MISSING)".data ++ Sprintf rest []
  | '%' :: '%' :: rest, args => '%' :: Sprintf rest args
  | c :: rest, args => c :: Sprintf rest args

/-- The method `(*GeoPhoto).StreetViewUrl`; it panics when `StringDegrees` does. -/
def StreetViewUrl (geo : GeoPhoto) : Option String := do
  let degrees ← StringDegrees geo
  pure (String.mk (Sprintf
    "https://maps.googleapis.com/maps/api/streetview?location=%s&size=640x640&fov=120&heading=0&sensor=false".data
    [degrees]))

/-! ## Machine integers -/

/-- Reduction of an integer to the range of a Go `uint64`. -/
def wrapU64 (x : Int) : Int := x % 18446744073709551616

/-- Reduction of an integer to the range of a Go `int64` (two's complement); `int` is the
same type on a 64-bit platform. -/
def wrapI64 (x : Int) : Int := (x + 9223372036854775808) % 18446744073709551616 - 9223372036854775808

/-! ## `strings.Split` and `strconv.Atoi` -/

/-- The pieces `strings.Split(s, sep)` returns for a one-character separator: the text
between consecutive separators, always at least one piece (the empty text splits
into one empty piece). -/
def Split : List Char → Char → List (List Char)
  | [], _ => [[]]
  | c :: cs, sep =>
    if c = sep then [] :: Split cs sep
    else
      match Split cs sep with
      | [] => [[c]]
      | p :: ps => (c :: p) :: ps

/-- The digit loop of `strconv.ParseUint(s, 10, 64)`, with the number read so far: value and
error. A character that is not one of '0'..'9' ends the loop with 0 and a syntax error. A
digit that would take the number past the largest `uint64` ends it at once with that largest
value and a range error; the characters after it are not looked at. -/
def parseUintLoop : List Char → Nat → Nat × Option Error
  | [], n => (n, none)
  | c :: cs, n =>
    if c.isDigit = false then (0, some "invalid syntax")
    else if 1844674407370955162 ≤ n then (18446744073709551615, some "value out of range")
    else if 18446744073709551615 < n * 10 + (c.toNat - 48) then
      (18446744073709551615, some "value out of range")
    else parseUintLoop cs (n * 10 + (c.toNat - 48))

/-- The function `strconv.ParseUint(s, 10, 64)`: the empty text is a syntax error. -/
def ParseUint (s : List Char) : Nat × Option Error :=
  match s with
  | [] => (0, some "invalid syntax")
  | _ :: _ => parseUintLoop s 0

/-- The function `strconv.Atoi`, that is `ParseInt(s, 10, 0)`: value and error. One leading
sign is taken off and the rest is read by `ParseUint`. A syntax error gives 0. Otherwise,
also after a range error of `ParseUint`, a number outside the `int` range comes back as the
nearest bound together with a range error, and a number inside it with its sign. -/
def Atoi (s : List Char) : Int × Option Error :=
  match s with
  | [] => (0, some "invalid syntax")
  | c :: rest =>
    let neg := decide (c = '-')
    let body := if c = '+' ∨ c = '-' then rest else s
    let res := ParseUint body
    let un := res.1
    if res.2 = some "invalid syntax" then (0, some "invalid syntax")
    else if neg = false ∧ 9223372036854775808 ≤ un then
      (9223372036854775807, some "value out of range")
    else if neg = true ∧ 9223372036854775808 < un then
      (-9223372036854775808, some "value out of range")
    else if neg then (-(un : Int), none)
    else ((un : Int), none)

/-! ## `time.Date(...).Unix()` -/

/-- A `*time.Location`; the package only ever asks for UTC. -/
inductive Location where
  | UTC
  deriving DecidableEq, Repr

/-- The function `time.LoadLocation`: the names "" and "UTC" give UTC without an error.
Other names need the zone database and are treated as unknown here; the package never
passes one. -/
def LoadLocation (name : String) : Except Error Location :=
  if name = "" ∨ name = "UTC" then .ok .UTC else .error "unknown time zone"

/-- The helper `norm(hi, lo, base)` of package `time`: brings `lo` into `[0, base)`, moving the
excess into `hi`. Go's `/` truncates; both divisions have non-negative operands. -/
def norm (hi lo base : Int) : Int × Int :=
  let step1 : Int × Int :=
    if lo < 0 then
      let n := wrapI64 (Int.tdiv (wrapI64 (wrapI64 (-lo) - 1)) base + 1)
      (wrapI64 (hi - n), wrapI64 (lo + wrapI64 (n * base)))
    else (hi, lo)
  if base ≤ step1.2 then
    let n := Int.tdiv step1.2 base
    (wrapI64 (step1.1 + n), wrapI64 (step1.2 - wrapI64 (n * base)))
  else step1

/-- The predicate `isLeap(year)` of package `time` (Go's `%` truncates). -/
def isLeap (year : Int) : Bool :=
  decide (Int.tmod year 4 = 0) && (decide (Int.tmod year 100 ≠ 0) || decide (Int.tmod year 400 = 0))

/-- The table `daysBefore` of package `time`: days of a non-leap year before each month. -/
def daysBefore : List Int := [0, 31, 59, 90, 120, 151, 181, 212, 243, 273, 304, 334, 365]

/-- The constant `absoluteZeroYear` of package `time`. -/
def absoluteZeroYear : Int := -292277022399

/-- The constant `absoluteToInternal + internalToUnix` of package `time`: the seconds from
the Unix epoch back to 1 January of `absoluteZeroYear`. -/
def absoluteToUnix : Int := -9223371966579724800 + -62135596800

/-- The helper `daysSinceEpoch(year)` of package `time`, in `uint64` arithmetic: days from
1 January of `absoluteZeroYear` to 1 January of `year`, by 400-, 100- and 4-year cycles. -/
def daysSinceEpoch (year : Int) : Int :=
  let y0 := wrapU64 (wrapI64 (year - absoluteZeroYear))
  let n400 := y0 / 400
  let y1 := wrapU64 (y0 - wrapU64 (400 * n400))
  let d0 := wrapU64 (146097 * n400)
  let n100 := y1 / 100
  let y2 := wrapU64 (y1 - wrapU64 (100 * n100))
  let d1 := wrapU64 (d0 + wrapU64 (36524 * n100))
  let n4 := y2 / 4
  let y3 := wrapU64 (y2 - wrapU64 (4 * n4))
  let d2 := wrapU64 (d1 + wrapU64 (1461 * n4))
  wrapU64 (d2 + wrapU64 (365 * y3))

/-- The value `time.Date(year, month, day, hour, min, sec, 0, time.UTC).Unix()`: the fields are
normalised with `norm`, the days since the absolute epoch are counted, and the seconds are
shifted to the Unix epoch. UTC has no zone offset to apply. -/
def DateUnix (year month day hour min sec : Int) (_loc : Location) : Int :=
  let ym := norm year (wrapI64 (month - 1)) 12
  let year1 := ym.1
  let month1 := wrapI64 (ym.2 + 1)
  let ms := norm min sec 60
  let hm := norm hour ms.1 60
  let dh := norm day hm.1 24
  let d0 := daysSinceEpoch year1
  let d1 := wrapU64 (d0 + wrapU64 (daysBefore.getD (month1 - 1).toNat 0))
  let d2 := if isLeap year1 ∧ 3 ≤ month1 then wrapU64 (d1 + 1) else d1
  let d3 := wrapU64 (d2 + wrapU64 (wrapI64 (dh.1 - 1)))
  let abs0 := wrapU64 (d3 * 86400)
  let abs1 := wrapU64 (abs0 + wrapU64 (wrapI64 (wrapI64 (dh.2 * 3600) + wrapI64 (hm.2 * 60) + ms.2)))
  wrapI64 (wrapI64 abs1 + absoluteToUnix)

/-- The map literal `monthConstants` of `Unix`, read with Go's map lookup: a key outside
1..12 yields the zero `time.Month`. -/
def monthConstants (month : Int) : Int :=
  if month = 1 then 1
  else if month = 2 then 2
  else if month = 3 then 3
  else if month = 4 then 4
  else if month = 5 then 5
  else if month = 6 then 6
  else if month = 7 then 7
  else if month = 8 then 8
  else if month = 9 then 9
  else if month = 10 then 10
  else if month = 11 then 11
  else if month = 12 then 12
  else 0

/-! ## `Unix` -/

/-- The method `(*GeoPhoto).Unix`. With a `nil` time or date stamp it returns 0. Otherwise the
date text is split on ":" and its first three pieces are read with `Atoi` (errors
dropped); indexing a missing piece panics. Hour, minute and second are the numerators
`Rat(i).Num().Int64()` of the time stamp's components. -/
def Unix (geo : GeoPhoto) : Option Int :=
  match geo.GPSTimeStamp, geo.GPSDateStamp with
  | none, _ => some 0
  | some _, none => some 0
  | some timeStamp, some dateStamp => do
    let text ← dateStamp.StringVal
    let dateParts := Split text.toList ':'
    let part0 ← dateParts.get? 0
    let year := (Atoi part0).1
    let part1 ← dateParts.get? 1
    let month := (Atoi part1).1
    let part2 ← dateParts.get? 2
    let day := (Atoi part2).1
    let rat0 ← timeStamp.Rat 0
    let hour := wrapI64 rat0.num
    let rat1 ← timeStamp.Rat 1
    let minute := wrapI64 rat1.num
    let rat2 ← timeStamp.Rat 2
    let second := wrapI64 rat2.num
    match LoadLocation "UTC" with
    | .error _ => pure 0
    | .ok loc => pure (DateUnix year (monthConstants month) day hour minute second loc)

/-! ## Building a `GeoPhoto` -/

/-- The tag names of package `exif` that this package looks up, and all the others. -/
inductive FieldName where
  | GPSLatitude
  | GPSLatitudeRef
  | GPSLongitude
  | GPSLongitudeRef
  | GPSTimeStamp
  | GPSDateStamp
  | Other (name : String)
  deriving DecidableEq, Repr

/-- A decoded `*exif.Exif`: its table of tags by name. -/
structure Exif where
  main : List (FieldName × Tag)
  deriving DecidableEq, Repr

/-- The method `(*exif.Exif).Get(name)`: the tag and a `nil` error when the name is in the
table, a `nil` tag and an error when it is not. -/
def Exif.Get (x : Exif) (name : FieldName) : Option Tag × Option Error :=
  match x.main.lookup name with
  | some tag => (some tag, none)
  | none => (none, some "tag not present")

/-- The function `NewGeoPhotoFromExif`: six lookups whose errors are dropped. -/
def NewGeoPhotoFromExif (exifData : Exif) : GeoPhoto :=
  { GPSLatitude := (exifData.Get .GPSLatitude).1
    GPSLatitudeRef := (exifData.Get .GPSLatitudeRef).1
    GPSLongitude := (exifData.Get .GPSLongitude).1
    GPSLongitudeRef := (exifData.Get .GPSLongitudeRef).1
    GPSTimeStamp := (exifData.Get .GPSTimeStamp).1
    GPSDateStamp := (exifData.Get .GPSDateStamp).1 }

/-- An opened `*os.File`: the bytes that can be read from it. -/
structure File where
  bytes : List Nat
  deriving DecidableEq, Repr

/-- The value `os.FileInfo` as far as `walk` reads it: `fi.Mode().IsDir()`. -/
structure FileInfo where
  IsDir : Bool
  deriving DecidableEq, Repr

/-- One call `filepath.Walk` makes to its visitor: the path, the file information and the
traversal error. `filepath.Walk` passes usable file information whenever the error is `nil`,
and `walk` reads it only then. -/
structure Visit where
  path : String
  fi : FileInfo
  err : Option Error
  deriving DecidableEq, Repr

/-- The operating system and libraries around the package: `os.Open`, `exif.Decode`, and the
sequence of visits `filepath.Walk(dir, ·)` makes as long as the visitor returns `nil`. -/
structure Env where
  Open : String → Except Error File
  Decode : File → Except Error Exif
  Walk : String → List Visit

/-- The function `NewGeoPhotoFromFile`: the record and the error. -/
def NewGeoPhotoFromFile (env : Env) (path : String) : GeoPhoto × Option Error :=
  match env.Open path with
  | .error err => (GeoPhoto.zero, some err)
  | .ok file =>
    match env.Decode file with
    | .error err => (GeoPhoto.zero, some err)
    | .ok exifData => (NewGeoPhotoFromExif exifData, none)

/-! ## The directory walk -/

/-- A Go `map[int]GeoPhoto`, by what a lookup finds under each key. -/
abbrev GeoPhotoMap := Int → Option GeoPhoto

/-- The result of `make(map[int]GeoPhoto)`. -/
def GeoPhotoMap.empty : GeoPhotoMap := fun _ => none

/-- The assignment `m[key] = geo`. -/
def GeoPhotoMap.set (m : GeoPhotoMap) (key : Int) (geo : GeoPhoto) : GeoPhotoMap :=
  fun k => if k = key then some geo else m k

/-- The visitor `walk`, acting on the global `GeoPhotoDataWalk`: the error it returns and the
new content of the global; `none` when the call panics (inside `Unix`). -/
def walk (env : Env) (path : String) (fi : FileInfo) (err : Option Error)
    (GeoPhotoDataWalk : GeoPhotoMap) : Option (Option Error × GeoPhotoMap) :=
  if err ≠ none then some (none, GeoPhotoDataWalk)
  else if fi.IsDir then some (none, GeoPhotoDataWalk)
  else
    let res := NewGeoPhotoFromFile env path
    let geo := res.1
    if res.2 ≠ none then some (none, GeoPhotoDataWalk)
    else if geo.GPSTimeStamp = none ∨ geo.GPSDateStamp = none ∨ geo.GPSLatitude = none ∨
        geo.GPSLatitudeRef = none ∨ geo.GPSLongitude = none ∨ geo.GPSLongitudeRef = none then
      some (none, GeoPhotoDataWalk)
    else
      match Unix geo with
      | none => none
      | some t => some (none, GeoPhotoDataWalk.set (wrapI64 t) geo)

/-- The loop of `filepath.Walk` over its visits: the visitor is called on each in turn and the
loop stops at the first error the visitor returns; a panic of the visitor ends everything. -/
def walkVisits (env : Env) : List Visit → GeoPhotoMap → Option GeoPhotoMap
  | [], m => some m
  | v :: vs, m =>
    match walk env v.path v.fi v.err m with
    | none => none
    | some (some _, m1) => some m1
    | some (none, m1) => walkVisits env vs m1

/-- The function `DirGeoPhotoData`, given the content of the global `GeoPhotoDataWalk` before the
call: the global is replaced by a new map, the tree is walked, and the global is returned. -/
def DirGeoPhotoData (env : Env) (dir : String) (_GeoPhotoDataWalk : GeoPhotoMap) :
    Option GeoPhotoMap :=
  walkVisits env (env.Walk dir) GeoPhotoMap.empty

/-! ## Reading the package's results

These definitions are not from the source: they say, in the words of the
specification, what a rendered coordinate and a calendar date mean. -/

/-- Specification side: the number a run of decimal digits spells, read left to right
starting from `acc`; `none` when a character is not one of '0'..'9'. -/
def parseDigits : List Char → Nat → Option Nat
  | [], acc => some acc
  | c :: cs, acc =>
    if c.isDigit then parseDigits cs (acc * 10 + (c.toNat - 48)) else none

/-- Specification side: `s` renders `x` with exactly `prec` digits after the decimal point,
rounded to nearest. That is, `s` is an optional minus sign (present exactly when `x` is
negative), a non-empty run of digits, a point and `prec` digits, and the number those digits
spell, counted in units of `10^-prec`, is within half a unit of `|x|`. -/
def RendersRounded (x : ℚ) (prec : Nat) (s : String) : Prop :=
  ∃ (ip fp : List Char) (I F : Nat),
    s.data = (if x < 0 then ['-'] else []) ++ ip ++ '.' :: fp ∧
    ip ≠ [] ∧ fp.length = prec ∧
    parseDigits ip 0 = some I ∧ parseDigits fp 0 = some F ∧
    |(|x| * (10 : ℚ) ^ prec - ((I * 10 ^ prec + F : Nat) : ℚ))| ≤ 1 / 2

/-- Specification side: all six fields of a record are present. -/
def AllPresent (geo : GeoPhoto) : Prop :=
  geo.GPSLatitude ≠ none ∧ geo.GPSLatitudeRef ≠ none ∧ geo.GPSLongitude ≠ none ∧
  geo.GPSLongitudeRef ≠ none ∧ geo.GPSTimeStamp ≠ none ∧ geo.GPSDateStamp ≠ none

/-- Specification side: the visit `v` is an eligible entry with record `geo`. It was reported
without a traversal error, is not a directory, `NewGeoPhotoFromFile` built `geo` from its
path without an error, and `geo` has all six fields. -/
def Eligible (env : Env) (v : Visit) (geo : GeoPhoto) : Prop :=
  v.err = none ∧ v.fi.IsDir = false ∧ NewGeoPhotoFromFile env v.path = (geo, none) ∧
  AllPresent geo

instance AllPresent.decidable (geo : GeoPhoto) : Decidable (AllPresent geo) := by
  unfold AllPresent
  infer_instance

/-- Specification side: the Gregorian leap-year rule. -/
def isLeapYear (y : Nat) : Bool :=
  decide (y % 4 = 0) && (decide (y % 100 ≠ 0) || decide (y % 400 = 0))

/-- Specification side: the number of days of a calendar year. -/
def daysInYear (y : Nat) : Nat := if isLeapYear y then 366 else 365

/-- Specification side: the number of days of month `m` (1..12) of year `y`. -/
def daysInMonth (y m : Nat) : Nat :=
  if m = 2 then (if isLeapYear y then 29 else 28)
  else if m = 4 ∨ m = 6 ∨ m = 9 ∨ m = 11 then 30
  else 31

/-- Specification side: the days in the years `0 .. y-1`, counted year by year. -/
def daysBeforeYear : Nat → Nat
  | 0 => 0
  | y + 1 => daysBeforeYear y + daysInYear y

/-- Specification side: the days in the months `1 .. m` of year `y`, counted month by month. -/
def daysInMonthsUpTo (y : Nat) : Nat → Nat
  | 0 => 0
  | m + 1 => daysInMonthsUpTo y m + daysInMonth y (m + 1)

/-- Specification side: the number of days from 1970-01-01 to the calendar date `y-m-d`
(negative before 1970), counting whole years, then whole months, then days. -/
def daysFromEpoch (y m d : Nat) : Int :=
  ((daysBeforeYear y + daysInMonthsUpTo y (m - 1) + (d - 1) : Nat) : Int) -
    ((daysBeforeYear 1970 : Nat) : Int)

/-- Specification side: the text "YYYY:MM:DD" of a date, zero-padded to four, two and two
digits. -/
def dateStampText (y m d : Nat) : String :=
  String.mk [Nat.digitChar (y / 1000 % 10), Nat.digitChar (y / 100 % 10),
    Nat.digitChar (y / 10 % 10), Nat.digitChar (y % 10), ':',
    Nat.digitChar (m / 10 % 10), Nat.digitChar (m % 10), ':',
    Nat.digitChar (d / 10 % 10), Nat.digitChar (d % 10)]

/-- Specification side: the tag yields three rational components (it is a rational tag with
at least three components whose first three denominators are not zero). -/
def ThreeRationals (t : Tag) : Prop :=
  (t.Rat 0).isSome ∧ (t.Rat 1).isSome ∧ (t.Rat 2).isSome

/-- Specification side: the tag carries text. -/
def IsText (t : Tag) : Prop := t.StringVal.isSome

/-- Specification side: the text is an optional sign followed by one or more decimal
digits. -/
def IsDecimalText (s : List Char) : Prop :=
  ∃ sign digits : List Char, s = sign ++ digits ∧ (sign = [] ∨ sign = ['+'] ∨ sign = ['-']) ∧
    digits ≠ [] ∧ ∀ c ∈ digits, c.isDigit = true

/-- Specification side: the text without its optional leading sign. -/
def unsignedPart (s : List Char) : List Char :=
  match s with
  | [] => []
  | c :: rest => if c = '+' ∨ c = '-' then rest else c :: rest

/-- Specification side: the number spelled by the decimal digits of `s` that come before its
first character that is not a digit, continuing from `n`. -/
def leadingValue : List Char → Nat → Nat
  | [], n => n
  | c :: cs, n => if c.isDigit = true then leadingValue cs (n * 10 + (c.toNat - 48)) else n

/-- Specification side: the date text with the three fields `a`, `b`, `c` joined by ":". -/
def dateOfFields (a b c : List Char) : String := String.mk (a ++ ':' :: (b ++ ':' :: c))

/-- Specification side: the record `geo` with its date stamp replaced by the text `text`. -/
def withDate (geo : GeoPhoto) (text : String) : GeoPhoto :=
  { geo with GPSDateStamp := some (.stringVal text) }

/-! ## Sample photos -/

/-- A photo with all six tags: 37°48'45.36" N, 122°25'8.52" W, taken 2023-06-15 14:30:00. -/
def samplePhoto : GeoPhoto :=
  { GPSLatitude := some (.ratVal [(37, 1), (48, 1), (4536, 100)])
    GPSLatitudeRef := some (.stringVal "N")
    GPSLongitude := some (.ratVal [(122, 1), (25, 1), (852, 100)])
    GPSLongitudeRef := some (.stringVal "W")
    GPSTimeStamp := some (.ratVal [(14, 1), (30, 1), (0, 1)])
    GPSDateStamp := some (.stringVal "2023:06:15") }

/-- The sample photo without its date stamp. -/
def sampleNoDate : GeoPhoto := { samplePhoto with GPSDateStamp := none }

/-- The sample photo with the seconds of its time stamp stored as 4536/100, that is 45.36. -/
def sampleFractionalSecond : GeoPhoto :=
  { samplePhoto with GPSTimeStamp := some (.ratVal [(14, 1), (30, 1), (4536, 100)]) }

/-- The sample photo with latitude reference "S": same timestamp, different position. -/
def samplePhotoSouth : GeoPhoto :=
  { samplePhoto with GPSLatitudeRef := some (.stringVal "S") }

/-- The sample photo with only its latitude and longitude tags and their references. -/
def sampleCoordsOnly : GeoPhoto :=
  { samplePhoto with GPSTimeStamp := none, GPSDateStamp := none }

/-- The sample photo with a date stamp of two fields only. -/
def sampleShortDate : GeoPhoto :=
  { samplePhoto with GPSDateStamp := some (.stringVal "2023:06") }

/-- The tag table holding exactly the tags a record has. -/
def exifOf (geo : GeoPhoto) : Exif :=
  { main :=
      (geo.GPSLatitude.map (fun t => (FieldName.GPSLatitude, t))).toList ++
      (geo.GPSLatitudeRef.map (fun t => (FieldName.GPSLatitudeRef, t))).toList ++
      (geo.GPSLongitude.map (fun t => (FieldName.GPSLongitude, t))).toList ++
      (geo.GPSLongitudeRef.map (fun t => (FieldName.GPSLongitudeRef, t))).toList ++
      (geo.GPSTimeStamp.map (fun t => (FieldName.GPSTimeStamp, t))).toList ++
      (geo.GPSDateStamp.map (fun t => (FieldName.GPSDateStamp, t))).toList }

/-- An environment with one directory tree `dir`: `visits` is what `filepath.Walk` reports
for it, `files` gives the bytes of each path that can be opened, and `images` the tag table
of each byte content that decodes. -/
def treeEnv (dir : String) (visits : List Visit) (files : List (String × List Nat))
    (images : List (List Nat × Exif)) : Env :=
  { Open := fun path =>
      match files.lookup path with
      | some bytes => .ok ⟨bytes⟩
      | none => .error "open failed"
    Decode := fun file =>
      match images.lookup file.bytes with
      | some x => .ok x
      | none => .error "no exif"
    Walk := fun d => if d = dir then visits else [⟨d, ⟨false⟩, some "lstat failed"⟩] }

/-- A directory with one complete photo, one photo with coordinates only, one file that is
not an image and one file that cannot be opened. -/
def sampleEnv : Env :=
  treeEnv "photos"
    [⟨"photos", ⟨true⟩, none⟩, ⟨"photos/a.jpg", ⟨false⟩, none⟩, ⟨"photos/b.jpg", ⟨false⟩, none⟩,
     ⟨"photos/notes.txt", ⟨false⟩, none⟩, ⟨"photos/locked.jpg", ⟨false⟩, none⟩]
    [("photos/a.jpg", [1]), ("photos/b.jpg", [2]), ("photos/notes.txt", [3])]
    [([1], exifOf samplePhoto), ([2], exifOf sampleCoordsOnly)]

/-- A directory with two complete photos that carry the same timestamp. -/
def collisionEnv : Env :=
  treeEnv "photos"
    [⟨"photos", ⟨true⟩, none⟩, ⟨"photos/a.jpg", ⟨false⟩, none⟩, ⟨"photos/c.jpg", ⟨false⟩, none⟩]
    [("photos/a.jpg", [1]), ("photos/c.jpg", [4])]
    [([1], exifOf samplePhoto), ([4], exifOf samplePhotoSouth)]

/-- A directory with one photo that has all six tags and a date stamp of two fields. -/
def shortDateEnv : Env :=
  treeEnv "photos"
    [⟨"photos", ⟨true⟩, none⟩, ⟨"photos/d.jpg", ⟨false⟩, none⟩]
    [("photos/d.jpg", [5])]
    [([5], exifOf sampleShortDate)]

/-- The sample photo with an empty date stamp. -/
def sampleEmptyDate : GeoPhoto := withDate samplePhoto ""

/-- The sample photo with a latitude tag of two components only. -/
def sampleTwoComponents : GeoPhoto :=
  { samplePhoto with GPSLatitude := some (.ratVal [(37, 1), (48, 1)]) }

/-- The sample photo without its latitude reference. -/
def sampleNoLatitudeRef : GeoPhoto := { samplePhoto with GPSLatitudeRef := none }

/-- The sample photo with two more fields after the day in its date stamp. -/
def sampleLongDate : GeoPhoto := withDate samplePhoto "2023:06:15:99:zz"

/-! ## Decimal digits -/

theorem digitChar_digit : ∀ m, m < 10 →
    (Nat.digitChar m).isDigit = true ∧ (Nat.digitChar m).toNat - 48 = m := by
  decide

theorem parseDigits_append (xs ys : List Char) (k : Nat) :
    parseDigits (xs ++ ys) k = (parseDigits xs k).bind (fun j => parseDigits ys j) := by
  induction xs generalizing k with
  | nil => simp [parseDigits]
  | cons c cs ih =>
    simp only [List.cons_append, parseDigits]
    split
    · exact ih _
    · rfl

theorem parseDigits_zeros (j : Nat) : parseDigits (List.replicate j '0') 0 = some 0 := by
  induction j with
  | zero => rfl
  | succ j ih =>
    have h : parseDigits (List.replicate (j + 1) '0') 0 = parseDigits (List.replicate j '0') 0 := by
      simp [List.replicate_succ, parseDigits]
    rw [h, ih]

theorem toDigitsCore_reads (fuel : Nat) : ∀ (n : Nat) (acc : List Char), n < fuel →
    ∃ ds : List Char, Nat.toDigitsCore 10 fuel n acc = ds ++ acc ∧ ds ≠ [] ∧
      ∀ k, parseDigits ds k = some (k * 10 ^ ds.length + n) := by
  induction fuel with
  | zero => intro n acc h; omega
  | succ fuel ih =>
    intro n acc h
    have hd := digitChar_digit (n % 10) (Nat.mod_lt _ (by decide))
    by_cases h0 : n / 10 = 0
    · refine ⟨[Nat.digitChar (n % 10)], ?_, by simp, ?_⟩
      · simp [Nat.toDigitsCore, h0]
      · intro k
        have hn : n % 10 = n := by omega
        rw [hn] at hd ⊢
        simp [parseDigits, hd.1, hd.2]
    · have hlt : n / 10 < fuel := by omega
      obtain ⟨ds, hds, _, hk⟩ := ih (n / 10) (Nat.digitChar (n % 10) :: acc) hlt
      refine ⟨ds ++ [Nat.digitChar (n % 10)], ?_, by simp, ?_⟩
      · simp [Nat.toDigitsCore, h0, hds]
      · intro k
        rw [parseDigits_append, hk k]
        simp only [Option.some_bind, parseDigits, hd.1, if_true, hd.2, List.length_append,
          List.length_singleton, pow_succ, Option.some.injEq]
        have := Nat.div_add_mod n 10
        nlinarith [this]

theorem utoa_reads (n : Nat) : utoa n ≠ [] ∧ parseDigits (utoa n) 0 = some n := by
  obtain ⟨ds, hds, hne, hk⟩ := toDigitsCore_reads (n + 1) n [] (Nat.lt_succ_self n)
  have e : utoa n = ds := by simp [utoa, Nat.toDigits, hds]
  rw [e]
  exact ⟨hne, by simpa using hk 0⟩

theorem utoa_length (n e : Nat) (he : 0 < e) (hn : n < 10 ^ e) : (utoa n).length ≤ e := by
  exact Nat.repr_length n e he hn

theorem padded_reads (n prec : Nat) (hp : 0 < prec) (hn : n < 10 ^ prec) :
    (List.replicate (prec - (utoa n).length) '0' ++ utoa n).length = prec ∧
    parseDigits (List.replicate (prec - (utoa n).length) '0' ++ utoa n) 0 = some n := by
  have hl := utoa_length n prec hp hn
  constructor
  · simp only [List.length_append, List.length_replicate]; omega
  · rw [parseDigits_append, parseDigits_zeros]
    exact (utoa_reads n).2

/-! ## `FloatString` rounds to nearest -/

theorem floatCharsOf_rounds (num : Int) (den prec : Nat) (hden : 0 < den) (hp : 0 < prec) :
    ∃ (ip fp : List Char) (I F : Nat),
      floatCharsOf num den prec = (if num < 0 then ['-'] else []) ++ ip ++ '.' :: fp ∧
      ip ≠ [] ∧ fp.length = prec ∧
      parseDigits ip 0 = some I ∧ parseDigits fp 0 = some F ∧
      2 * den * (I * 10 ^ prec + F) ≤ 2 * num.natAbs * 10 ^ prec + den ∧
      2 * num.natAbs * 10 ^ prec ≤ 2 * den * (I * 10 ^ prec + F) + den := by
  have hpow : 0 < 10 ^ prec := by positivity
  by_cases hb : den = 1
  · refine ⟨utoa num.natAbs, List.replicate prec '0', num.natAbs, 0, ?_, (utoa_reads _).1,
      by simp, (utoa_reads _).2, parseDigits_zeros prec, ?_, ?_⟩
    · simp [floatCharsOf, hb, hp]
    · subst hb; linarith
    · subst hb; linarith
  · have hb2 : 2 ≤ den := by omega
    have hqr := Nat.div_add_mod num.natAbs den
    have hr : num.natAbs % den < den := Nat.mod_lt _ hden
    have h12 := Nat.div_add_mod (num.natAbs % den * 10 ^ prec) den
    have hr2 : num.natAbs % den * 10 ^ prec % den < den := Nat.mod_lt _ hden
    have hr1 : num.natAbs % den * 10 ^ prec / den < 10 ^ prec := by
      rw [Nat.div_lt_iff_lt_mul hden, Nat.mul_comm (10 ^ prec) den]
      exact Nat.mul_lt_mul_of_pos_right hr hpow
    generalize hq : num.natAbs / den = q at *
    generalize hrr : num.natAbs % den = r at *
    generalize hr1e : r * 10 ^ prec / den = r1 at *
    generalize hr2e : r * 10 ^ prec % den = r2 at *
    generalize hpe : 10 ^ prec = p at *
    have hap : num.natAbs * p = den * (q * p) + den * r1 + r2 := by
      rw [← hqr, Nat.add_mul, ← h12]; ring
    by_cases hup : den ≤ r2 + r2
    · by_cases hc : p ≤ r1 + 1
      · have hr1p : r1 + 1 = p := by omega
        have hdp : den * p = den * r1 + den := by rw [← hr1p]; ring
        refine ⟨utoa (q + 1), List.replicate (prec - (utoa 0).length) '0' ++ utoa 0, q + 1, 0, ?_,
          (utoa_reads _).1, (padded_reads 0 prec hp (hpe ▸ hpow)).1, (utoa_reads _).2,
          (padded_reads 0 prec hp (hpe ▸ hpow)).2, ?_, ?_⟩
        · simp [floatCharsOf, hb, hp, hq, hrr, hr1e, hr2e, hpe, hup, hc, hr1p]
        · linarith
        · linarith
      · have hlt : r1 + 1 < 10 ^ prec := by omega
        refine ⟨utoa q, List.replicate (prec - (utoa (r1 + 1)).length) '0' ++ utoa (r1 + 1), q,
          r1 + 1, ?_, (utoa_reads _).1, (padded_reads _ prec hp hlt).1, (utoa_reads _).2,
          (padded_reads _ prec hp hlt).2, ?_, ?_⟩
        · simp [floatCharsOf, hb, hp, hq, hrr, hr1e, hr2e, hpe, hup, hc]
        · linarith
        · linarith
    · have hlt : r1 < 10 ^ prec := by omega
      refine ⟨utoa q, List.replicate (prec - (utoa r1).length) '0' ++ utoa r1, q, r1, ?_,
        (utoa_reads _).1, (padded_reads _ prec hp hlt).1, (utoa_reads _).2,
        (padded_reads _ prec hp hlt).2, ?_, ?_⟩
      · simp [floatCharsOf, hb, hp, hq, hrr, hr1e, hr2e, hpe, hup]
      · linarith
      · linarith

theorem FloatString_renders (x : ℚ) (prec : Nat) (hp : 0 < prec) :
    RendersRounded x prec (FloatString x prec) := by
  obtain ⟨ip, fp, I, F, hs, hne, hlen, hI, hF, h1, h2⟩ :=
    floatCharsOf_rounds x.num x.den prec x.den_pos hp
  refine ⟨ip, fp, I, F, ?_, hne, hlen, hI, hF, ?_⟩
  · have hsign : (x.num < 0) = (x < 0) := propext Rat.num_neg
    simp only [FloatString, floatChars, hs, hsign]
  · have hb : (0 : ℚ) < (x.den : ℚ) := by exact_mod_cast x.den_pos
    have hx : |x| = (x.num.natAbs : ℚ) / (x.den : ℚ) := by
      rw [Rat.abs_def, Rat.divInt_eq_div]
      simp [Nat.cast_natAbs]
    have h1q : (2 * x.den * (I * 10 ^ prec + F) : ℚ) ≤ 2 * x.num.natAbs * 10 ^ prec + x.den := by
      exact_mod_cast h1
    have h2q : (2 * x.num.natAbs * 10 ^ prec : ℚ) ≤ 2 * x.den * (I * 10 ^ prec + F) + x.den := by
      exact_mod_cast h2
    have e : |x| * (10 : ℚ) ^ prec - ((I * 10 ^ prec + F : Nat) : ℚ) =
        (2 * x.num.natAbs * 10 ^ prec - 2 * x.den * (I * 10 ^ prec + F)) / (2 * x.den) := by
      rw [hx]; push_cast; field_simp; ring
    rw [e, abs_le]
    constructor
    · rw [le_div_iff₀ (by positivity)]; linarith
    · rw [div_le_iff₀ (by positivity)]; linarith

/-! ## Coordinates -/

/-- C1: for all rationals `d`, `m`, `s` and every reference text, `sexToDec` returns exactly
`d + m/60 + s/3600` unless the reference is "S" or "W", and exactly the negation of that
sum when it is; no reference text is rejected. -/
theorem sexToDec_exact (d m s : ℚ) (dir : String) :
    (¬(dir = "S" ∨ dir = "W") → sexToDec d m s dir = d + m / 60 + s / 3600) ∧
    (dir = "S" ∨ dir = "W" → sexToDec d m s dir = -(d + m / 60 + s / 3600)) := by
  constructor
  · intro h
    simp only [sexToDec, sexToDecState, if_neg h]
  · intro h
    simp only [sexToDec, sexToDecState, if_pos h]

theorem sexToDec_exact_witness :
    sexToDec 37 48 (4536 / 100) "n" = 37 + 48 / 60 + (4536 / 100) / 3600 ∧
    sexToDec 37 48 (4536 / 100) "" = 37 + 48 / 60 + (4536 / 100) / 3600 ∧
    sexToDec 122 25 (852 / 100) "W" = -(122 + 25 / 60 + (852 / 100) / 3600) :=
  ⟨(sexToDec_exact 37 48 (4536 / 100) "n").1 (by decide),
   (sexToDec_exact 37 48 (4536 / 100) "").1 (by decide),
   (sexToDec_exact 122 25 (852 / 100) "W").2 (by decide)⟩

theorem StringDegrees_eq (geo : GeoPhoto) (latTag latRefTag lonTag lonRefTag : Tag)
    (d m s d' m' s' : ℚ) (latRef lonRef : String)
    (hLat : geo.GPSLatitude = some latTag) (hLatRef : geo.GPSLatitudeRef = some latRefTag)
    (hLon : geo.GPSLongitude = some lonTag) (hLonRef : geo.GPSLongitudeRef = some lonRefTag)
    (h0 : latTag.Rat 0 = some d) (h1 : latTag.Rat 1 = some m) (h2 : latTag.Rat 2 = some s)
    (hr : latRefTag.StringVal = some latRef)
    (h0' : lonTag.Rat 0 = some d') (h1' : lonTag.Rat 1 = some m') (h2' : lonTag.Rat 2 = some s')
    (hr' : lonRefTag.StringVal = some lonRef) :
    StringDegrees geo = some (FloatString (sexToDec d m s latRef) 6 ++ "," ++
      FloatString (sexToDec d' m' s' lonRef) 6) := by
  simp [StringDegrees, hLat, hLatRef, hLon, hLonRef, h0, h1, h2, hr, h0', h1', h2', hr']

/-- C2: when the latitude and longitude tags each carry three rational components and both
reference tags carry text, `StringDegrees` returns `lat ++ "," ++ lon`, where `lat` and `lon`
are the `sexToDec` values of the two triples, each rendered with exactly six digits after the
point and rounded to nearest. -/
theorem StringDegrees_renders (geo : GeoPhoto) (latTag latRefTag lonTag lonRefTag : Tag)
    (d m s d' m' s' : ℚ) (latRef lonRef : String)
    (hLat : geo.GPSLatitude = some latTag) (hLatRef : geo.GPSLatitudeRef = some latRefTag)
    (hLon : geo.GPSLongitude = some lonTag) (hLonRef : geo.GPSLongitudeRef = some lonRefTag)
    (h0 : latTag.Rat 0 = some d) (h1 : latTag.Rat 1 = some m) (h2 : latTag.Rat 2 = some s)
    (hr : latRefTag.StringVal = some latRef)
    (h0' : lonTag.Rat 0 = some d') (h1' : lonTag.Rat 1 = some m') (h2' : lonTag.Rat 2 = some s')
    (hr' : lonRefTag.StringVal = some lonRef) :
    ∃ lat lon : String,
      StringDegrees geo = some (lat ++ "," ++ lon) ∧
      lat = FloatString (sexToDec d m s latRef) 6 ∧
      lon = FloatString (sexToDec d' m' s' lonRef) 6 ∧
      RendersRounded (sexToDec d m s latRef) 6 lat ∧
      RendersRounded (sexToDec d' m' s' lonRef) 6 lon :=
  ⟨_, _, StringDegrees_eq geo latTag latRefTag lonTag lonRefTag d m s d' m' s' latRef lonRef
      hLat hLatRef hLon hLonRef h0 h1 h2 hr h0' h1' h2' hr',
    rfl, rfl, FloatString_renders _ 6 (by decide), FloatString_renders _ 6 (by decide)⟩

theorem floatChars_div (n d : Int) (prec : Nat) (hd : 0 < d)
    (h : Nat.Coprime n.natAbs d.natAbs) :
    floatChars ((n : ℚ) / (d : ℚ)) prec = floatCharsOf n d.natAbs prec := by
  unfold floatChars
  have hden : (((n : ℚ) / (d : ℚ)).den : ℤ) = d := Rat.den_div_eq_of_coprime hd h
  have hden2 : ((n : ℚ) / (d : ℚ)).den = d.natAbs := by omega
  rw [Rat.num_div_eq_of_coprime hd h, hden2]

theorem sample_latitude :
    sexToDec ((37 : Int) / (1 : Int)) ((48 : Int) / (1 : Int)) ((4536 : Int) / (100 : Int)) "N"
      = ((189063 : Int) : ℚ) / ((5000 : Int) : ℚ) := by
  simp [sexToDec, sexToDecState]; norm_num

theorem sample_longitude :
    sexToDec ((122 : Int) / (1 : Int)) ((25 : Int) / (1 : Int)) ((852 : Int) / (100 : Int)) "W"
      = ((-3672571 : Int) : ℚ) / ((30000 : Int) : ℚ) := by
  simp [sexToDec, sexToDecState]; norm_num

theorem StringDegrees_renders_witness :
    StringDegrees samplePhoto = some "37.812600,-122.419033" ∧
    RendersRounded (((189063 : Int) : ℚ) / ((5000 : Int) : ℚ)) 6 "37.812600" ∧
    RendersRounded (((-3672571 : Int) : ℚ) / ((30000 : Int) : ℚ)) 6 "-122.419033" := by
  obtain ⟨lat, lon, h, hlat, hlon, rlat, rlon⟩ :=
    StringDegrees_renders samplePhoto (.ratVal [(37, 1), (48, 1), (4536, 100)]) (.stringVal "N")
      (.ratVal [(122, 1), (25, 1), (852, 100)]) (.stringVal "W")
      ((37 : Int) / (1 : Int)) ((48 : Int) / (1 : Int)) ((4536 : Int) / (100 : Int))
      ((122 : Int) / (1 : Int)) ((25 : Int) / (1 : Int)) ((852 : Int) / (100 : Int)) "N" "W"
      rfl rfl rfl rfl rfl rfl rfl rfl rfl rfl rfl rfl
  have e1 : lat = "37.812600" := by
    rw [hlat, sample_latitude]
    unfold FloatString
    rw [floatChars_div _ _ _ (by decide) (by decide)]
    decide
  have e2 : lon = "-122.419033" := by
    rw [hlon, sample_longitude]
    unfold FloatString
    rw [floatChars_div _ _ _ (by decide) (by decide)]
    decide
  rw [sample_latitude] at rlat
  rw [sample_longitude] at rlon
  subst e1 e2
  exact ⟨h, rlat, rlon⟩

/-! ## Timestamps -/

theorem wrapI64_id (x : Int) (h1 : -9223372036854775808 ≤ x) (h2 : x < 9223372036854775808) :
    wrapI64 x = x := by
  unfold wrapI64; omega

theorem norm_id (hi lo base : Int) (h0 : 0 ≤ lo) (h1 : lo < base) : norm hi lo base = (hi, lo) := by
  simp [norm, not_lt.mpr h0, not_le.mpr h1]

theorem digitChar_plain : ∀ m, m < 10 →
    Nat.digitChar m ≠ ':' ∧ Nat.digitChar m ≠ '+' ∧ Nat.digitChar m ≠ '-' := by
  decide

/-- What `Unix` computes once both stamps are present, the date text has at least three
pieces and the time stamp has three rational components. -/
theorem Unix_present (geo : GeoPhoto) (ts ds : Tag) (text : String)
    (p0 p1 p2 : List Char) (rest : List (List Char)) (r0 r1 r2 : ℚ)
    (hts : geo.GPSTimeStamp = some ts) (hds : geo.GPSDateStamp = some ds)
    (htext : ds.StringVal = some text) (hsplit : Split text.toList ':' = p0 :: p1 :: p2 :: rest)
    (h0 : ts.Rat 0 = some r0) (h1 : ts.Rat 1 = some r1) (h2 : ts.Rat 2 = some r2) :
    Unix geo = some (DateUnix (Atoi p0).1 (monthConstants (Atoi p1).1) (Atoi p2).1
      (wrapI64 r0.num) (wrapI64 r1.num) (wrapI64 r2.num) .UTC) := by
  have hs : Split text.data ':' = p0 :: p1 :: p2 :: rest := hsplit
  simp [Unix, hts, hds, htext, hs, h0, h1, h2, LoadLocation]

theorem parseUintLoop_digit (k : Nat) (cs : List Char) (n : Nat) (hk : k < 10)
    (hn : n < 1000000000000000000) :
    parseUintLoop (Nat.digitChar k :: cs) n = parseUintLoop cs (n * 10 + k) := by
  have hd := digitChar_digit k hk
  have h1 : ¬ (1844674407370955162 ≤ n) := by omega
  have h2 : ¬ (18446744073709551615 < n * 10 + k) := by omega
  simp only [parseUintLoop, hd.1, hd.2, if_neg h1, if_neg h2]
  simp

theorem Atoi_digits4 (a b c d : Nat) (ha : a < 10) (hb : b < 10) (hc : c < 10) (hd : d < 10) :
    (Atoi [Nat.digitChar a, Nat.digitChar b, Nat.digitChar c, Nat.digitChar d]).1 =
      ((1000 * a + 100 * b + 10 * c + d : Nat) : Int) := by
  have pa := digitChar_plain a ha
  have hs : ¬ (Nat.digitChar a = '+' ∨ Nat.digitChar a = '-') := by
    simp [pa.2.1, pa.2.2]
  have hp : ParseUint [Nat.digitChar a, Nat.digitChar b, Nat.digitChar c, Nat.digitChar d] =
      ((((0 * 10 + a) * 10 + b) * 10 + c) * 10 + d, none) := by
    show parseUintLoop _ 0 = _
    rw [parseUintLoop_digit a _ _ ha (by omega), parseUintLoop_digit b _ _ hb (by omega),
      parseUintLoop_digit c _ _ hc (by omega), parseUintLoop_digit d _ _ hd (by omega)]
    rfl
  simp only [Atoi, if_neg hs, hp]
  simp [pa.2.2]
  rw [if_neg (by omega)]
  push_cast
  ring

theorem Atoi_digits2 (a b : Nat) (ha : a < 10) (hb : b < 10) :
    (Atoi [Nat.digitChar a, Nat.digitChar b]).1 = ((10 * a + b : Nat) : Int) := by
  have pa := digitChar_plain a ha
  have hs : ¬ (Nat.digitChar a = '+' ∨ Nat.digitChar a = '-') := by
    simp [pa.2.1, pa.2.2]
  have hp : ParseUint [Nat.digitChar a, Nat.digitChar b] = ((0 * 10 + a) * 10 + b, none) := by
    show parseUintLoop _ 0 = _
    rw [parseUintLoop_digit a _ _ ha (by omega), parseUintLoop_digit b _ _ hb (by omega)]
    rfl
  simp only [Atoi, if_neg hs, hp]
  simp [pa.2.2]
  rw [if_neg (by omega)]
  push_cast
  ring

theorem Split_dateStampText (y m d : Nat) :
    Split (dateStampText y m d).toList ':' =
      [[Nat.digitChar (y / 1000 % 10), Nat.digitChar (y / 100 % 10),
        Nat.digitChar (y / 10 % 10), Nat.digitChar (y % 10)],
       [Nat.digitChar (m / 10 % 10), Nat.digitChar (m % 10)],
       [Nat.digitChar (d / 10 % 10), Nat.digitChar (d % 10)]] := by
  have f : ∀ k : Nat, Nat.digitChar (k % 10) ≠ ':' := fun k =>
    (digitChar_plain (k % 10) (Nat.mod_lt _ (by decide))).1
  simp [dateStampText, Split, f]

theorem daysBeforeYear_closed (y : Nat) :
    daysBeforeYear y + (y + 99) / 100 = 365 * y + (y + 3) / 4 + (y + 399) / 400 := by
  induction y with
  | zero => rfl
  | succ y ih =>
    simp only [daysBeforeYear, daysInYear, isLeapYear]
    by_cases h4 : y % 4 = 0 <;> by_cases h100 : y % 100 = 0 <;> by_cases h400 : y % 400 = 0 <;>
      simp [h4, h100, h400] <;> omega

theorem isLeap_natCast (y : Nat) : isLeap (y : Int) = isLeapYear y := by
  have h : ∀ k : Nat, Int.tmod (y : Int) (k : Int) = ((y % k : Nat) : Int) := fun k => by
    rw [Int.tmod_eq_emod (Int.natCast_nonneg _) (Int.natCast_nonneg _)]; rfl
  have h4 := h 4
  have h100 := h 100
  have h400 := h 400
  simp only [Nat.cast_ofNat] at h4 h100 h400
  simp only [isLeap, isLeapYear, h4, h100, h400]
  norm_cast

theorem wrapU64_id (x : Int) (h1 : 0 ≤ x) (h2 : x < 18446744073709551616) : wrapU64 x = x := by
  unfold wrapU64; omega

theorem cycle400 (Y : Int) (h1 : 292277022399 ≤ Y) (h2 : Y ≤ 292277032398) :
    wrapU64 (Y - wrapU64 (400 * (Y / 400))) = Y % 400 ∧
    wrapU64 (146097 * (Y / 400)) = 146097 * (Y / 400) := by
  unfold wrapU64; omega

theorem cycle100 (D R : Int) (hD1 : 0 ≤ D) (hD2 : D ≤ 200000000000000) (h1 : 0 ≤ R)
    (h2 : R < 400) :
    wrapU64 (R - wrapU64 (100 * (R / 100))) = R % 100 ∧
    wrapU64 (D + wrapU64 (36524 * (R / 100))) = D + 36524 * (R / 100) := by
  unfold wrapU64; omega

theorem cycle4 (D S : Int) (hD1 : 0 ≤ D) (hD2 : D ≤ 200000000000000) (h1 : 0 ≤ S)
    (h2 : S < 100) :
    wrapU64 (S - wrapU64 (4 * (S / 4))) = S % 4 ∧
    wrapU64 (D + wrapU64 (1461 * (S / 4))) = D + 1461 * (S / 4) ∧
    wrapU64 (D + 1461 * (S / 4) + wrapU64 (365 * (S % 4))) = D + 1461 * (S / 4) + 365 * (S % 4) := by
  unfold wrapU64; omega

theorem daysSinceEpoch_cycles (y : Nat) (hy : y ≤ 9999) :
    daysSinceEpoch (y : Int) =
      146097 * (((y : Int) + 292277022399) / 400) +
      36524 * (((y : Int) + 292277022399) % 400 / 100) +
      1461 * (((y : Int) + 292277022399) % 400 % 100 / 4) +
      365 * (((y : Int) + 292277022399) % 400 % 100 % 4) := by
  have e0 : wrapU64 (wrapI64 ((y : Int) - absoluteZeroYear)) = (y : Int) + 292277022399 := by
    unfold wrapU64 wrapI64 absoluteZeroYear; omega
  have hY1 : 292277022399 ≤ (y : Int) + 292277022399 := by omega
  have hY2 : (y : Int) + 292277022399 ≤ 292277032398 := by omega
  simp only [daysSinceEpoch, e0]
  generalize (y : Int) + 292277022399 = Y at hY1 hY2 ⊢
  have c1 := cycle400 Y hY1 hY2
  have hD1 : 0 ≤ 146097 * (Y / 400) := by omega
  have hD2 : 146097 * (Y / 400) ≤ 150000000000000 := by omega
  have r1 : 0 ≤ Y % 400 := Int.emod_nonneg _ (by decide)
  have r2 : Y % 400 < 400 := Int.emod_lt_of_pos _ (by decide)
  have c2 := cycle100 (146097 * (Y / 400)) (Y % 400) hD1 (by omega) r1 r2
  have s1 : 0 ≤ Y % 400 % 100 := Int.emod_nonneg _ (by decide)
  have s2 : Y % 400 % 100 < 100 := Int.emod_lt_of_pos _ (by decide)
  have hE1 : 0 ≤ 146097 * (Y / 400) + 36524 * (Y % 400 / 100) := by omega
  have hE2 : 146097 * (Y / 400) + 36524 * (Y % 400 / 100) ≤ 200000000000000 := by omega
  have c3 := cycle4 (146097 * (Y / 400) + 36524 * (Y % 400 / 100)) (Y % 400 % 100) hE1 hE2 s1 s2
  rw [c1.1, c1.2, c2.1, c2.2, c3.1, c3.2.1, c3.2.2]

theorem daysSinceEpoch_natCast (y : Nat) (hy : y ≤ 9999) :
    daysSinceEpoch (y : Int) = 106751990353566 + (daysBeforeYear y : Int) := by
  have hc := daysBeforeYear_closed y
  rw [daysSinceEpoch_cycles y hy]
  omega

theorem daysBeforeYear_le (y : Nat) : daysBeforeYear y ≤ 366 * y := by
  have hc := daysBeforeYear_closed y
  omega

theorem DateUnix_valid (y m d : Nat) (hour minute second : Int)
    (hy : y ≤ 9999) (hm1 : 1 ≤ m) (hm2 : m ≤ 12) (hd1 : 1 ≤ d) (hd2 : d ≤ daysInMonth y m)
    (hh1 : 0 ≤ hour) (hh2 : hour ≤ 23) (hmi1 : 0 ≤ minute) (hmi2 : minute ≤ 59)
    (hs1 : 0 ≤ second) (hs2 : second ≤ 59) :
    DateUnix y m d hour minute second .UTC =
      86400 * daysFromEpoch y m d + 3600 * hour + 60 * minute + second := by
  have hB := daysBeforeYear_le y
  have h1970 : daysBeforeYear 1970 = 719528 := by
    have := daysBeforeYear_closed 1970
    omega
  have hw : wrapI64 ((m : Int) - 1) = (m : Int) - 1 := wrapI64_id _ (by omega) (by omega)
  have hw2 : wrapI64 ((m : Int) - 1 + 1) = (m : Int) := by
    rw [wrapI64_id _ (by omega) (by omega)]; omega
  have hd31 : d ≤ 31 := by
    unfold daysInMonth at hd2
    split_ifs at hd2 <;> omega
  simp only [DateUnix, hw, norm_id _ _ 12 (by omega : (0 : Int) ≤ (m : Int) - 1) (by omega),
    norm_id _ _ 60 hs1 (by omega), norm_id _ _ 60 hmi1 (by omega),
    norm_id _ _ 24 hh1 (by omega), hw2, isLeap_natCast, daysSinceEpoch_natCast y hy,
    daysFromEpoch, h1970]
  generalize hBe : daysBeforeYear y = B at *
  interval_cases m <;>
    simp [daysBefore, daysInMonthsUpTo, daysInMonth] at hd2 ⊢ <;>
    cases hl : isLeapYear y <;>
    (try simp [hl] at hd2 ⊢) <;>
    simp only [wrapU64, wrapI64, absoluteToUnix] <;>
    omega

theorem monthConstants_id (m : Int) (h1 : 1 ≤ m) (h2 : m ≤ 12) : monthConstants m = m := by
  interval_cases m <;> rfl

/-- C3: for a date stamp "YYYY:MM:DD" naming a valid Gregorian date and a time stamp with
integer components `hour` in 0..23, `minute` in 0..59 and `second` in 0..59, `Unix` returns
`86400 * (days from 1970-01-01 to the date) + 3600*hour + 60*minute + second`. -/
theorem Unix_valid_date (geo : GeoPhoto) (ts : Tag) (y m d : Nat) (hour minute second : Int)
    (hts : geo.GPSTimeStamp = some ts)
    (hds : geo.GPSDateStamp = some (.stringVal (dateStampText y m d)))
    (hy : y ≤ 9999) (hm1 : 1 ≤ m) (hm2 : m ≤ 12) (hd1 : 1 ≤ d) (hd2 : d ≤ daysInMonth y m)
    (h0 : ts.Rat 0 = some (hour : ℚ)) (h1 : ts.Rat 1 = some (minute : ℚ))
    (h2 : ts.Rat 2 = some (second : ℚ))
    (hh1 : 0 ≤ hour) (hh2 : hour ≤ 23) (hmi1 : 0 ≤ minute) (hmi2 : minute ≤ 59)
    (hs1 : 0 ≤ second) (hs2 : second ≤ 59) :
    Unix geo = some (86400 * daysFromEpoch y m d + 3600 * hour + 60 * minute + second) := by
  have hd31 : d ≤ 31 := by
    unfold daysInMonth at hd2
    split_ifs at hd2 <;> omega
  have lt10 : ∀ k : Nat, k % 10 < 10 := fun k => Nat.mod_lt _ (by decide)
  rw [Unix_present geo ts (.stringVal (dateStampText y m d)) (dateStampText y m d) _ _ _ []
    hour minute second hts hds rfl (Split_dateStampText y m d) h0 h1 h2,
    Atoi_digits4 _ _ _ _ (lt10 _) (lt10 _) (lt10 _) (lt10 _),
    Atoi_digits2 _ _ (lt10 _) (lt10 _), Atoi_digits2 _ _ (lt10 _) (lt10 _)]
  have ey : 1000 * (y / 1000 % 10) + 100 * (y / 100 % 10) + 10 * (y / 10 % 10) + y % 10 = y := by
    omega
  have em : 10 * (m / 10 % 10) + m % 10 = m := by omega
  have ed : 10 * (d / 10 % 10) + d % 10 = d := by omega
  rw [ey, em, ed, monthConstants_id _ (by omega) (by omega), Rat.num_intCast, Rat.num_intCast,
    Rat.num_intCast, wrapI64_id hour (by omega) (by omega),
    wrapI64_id minute (by omega) (by omega), wrapI64_id second (by omega) (by omega),
    DateUnix_valid y m d hour minute second hy hm1 hm2 hd1 hd2 hh1 hh2 hmi1 hmi2 hs1 hs2]

theorem Unix_valid_date_witness :
    daysFromEpoch 2023 6 15 = 19523 ∧ Unix samplePhoto = some 1686839400 := by
  have hdays : daysFromEpoch 2023 6 15 = 19523 := by
    have a := daysBeforeYear_closed 2023
    have b := daysBeforeYear_closed 1970
    have c : daysInMonthsUpTo 2023 5 = 151 := by decide
    simp only [daysFromEpoch, c]
    omega
  have h := Unix_valid_date samplePhoto (.ratVal [(14, 1), (30, 1), (0, 1)]) 2023 6 15 14 30 0
    rfl rfl (by decide) (by decide) (by decide) (by decide) (by decide)
    (by simp [Tag.Rat]) (by simp [Tag.Rat]) (by simp [Tag.Rat])
    (by decide) (by decide) (by decide) (by decide) (by decide) (by decide)
  rw [hdays] at h
  exact ⟨hdays, h⟩

/-- C10: the seconds component 4536/100 (45.36) of the time stamp does not contribute its
integer part 45: `Unix` reads the numerator 1134 of the reduced fraction 1134/25, so the
result is 1686839400 + 1134 instead of 1686839400 + 45. -/
theorem Unix_fractional_second :
    Unix sampleFractionalSecond = some (1686839400 + 1134) := by
  have e2 : (((4536 : Int) : ℚ) / ((100 : Int) : ℚ)).num = 1134 := by
    have e : ((4536 : Int) : ℚ) / ((100 : Int) : ℚ) = ((1134 : Int) : ℚ) / ((25 : Int) : ℚ) := by
      norm_num
    rw [e]
    exact Rat.num_div_eq_of_coprime (by decide) (by decide)
  have e0 : (((14 : Int) : ℚ) / ((1 : Int) : ℚ)).num = 14 :=
    Rat.num_div_eq_of_coprime (by decide) (by decide)
  have e1 : (((30 : Int) : ℚ) / ((1 : Int) : ℚ)).num = 30 :=
    Rat.num_div_eq_of_coprime (by decide) (by decide)
  rw [Unix_present sampleFractionalSecond (.ratVal [(14, 1), (30, 1), (4536, 100)])
    (.stringVal "2023:06:15") "2023:06:15" "2023".toList "06".toList "15".toList []
    _ _ _ rfl rfl rfl (by decide) rfl rfl rfl, e0, e1, e2]
  decide

/-- C4: when the time stamp or the date stamp is absent, whatever the other fields hold,
`Unix` returns 0 and does not panic. -/
theorem Unix_absent (geo : GeoPhoto)
    (h : geo.GPSTimeStamp = none ∨ geo.GPSDateStamp = none) : Unix geo = some 0 := by
  unfold Unix
  rcases h with h | h
  · rw [h]
  · rw [h]
    cases geo.GPSTimeStamp <;> rfl

theorem Unix_absent_witness :
    Unix sampleNoDate = some 0 ∧ Unix GeoPhoto.zero = some 0 :=
  ⟨Unix_absent sampleNoDate (Or.inr rfl), Unix_absent GeoPhoto.zero (Or.inl rfl)⟩

/-! ## The directory walk -/

theorem wrapI64_idem (x : Int) : wrapI64 (wrapI64 x) = wrapI64 x := by
  unfold wrapI64; omega

/-- The value of `Unix` is an `int64`, so the conversion `int(geo.Unix())` keeps it. -/
theorem Unix_int (geo : GeoPhoto) (t : Int) (h : Unix geo = some t) : wrapI64 t = t := by
  unfold Unix at h
  split at h
  · cases h; rfl
  · cases h; rfl
  · simp only [Option.bind_eq_bind, Option.bind_eq_some, LoadLocation] at h
    obtain ⟨_, _, _, _, _, _, _, _, _, _, _, _, _, _, h⟩ := h
    simp only [true_or, or_true, if_true, Option.pure_def, Option.some.injEq] at h
    rw [← h]
    unfold DateUnix
    exact wrapI64_idem _

theorem walk_skip (env : Env) (v : Visit) (m : GeoPhotoMap)
    (h : ∀ geo, ¬ Eligible env v geo) : walk env v.path v.fi v.err m = some (none, m) := by
  unfold walk
  by_cases h1 : v.err = none
  · by_cases h2 : v.fi.IsDir = true
    · simp [h1, h2]
    · by_cases h3 : (NewGeoPhotoFromFile env v.path).2 = none
      · have h4 : ¬ AllPresent (NewGeoPhotoFromFile env v.path).1 := fun hp =>
          h _ ⟨h1, by simpa using h2, Prod.ext rfl h3, hp⟩
        have h5 : (NewGeoPhotoFromFile env v.path).1.GPSTimeStamp = none ∨
            (NewGeoPhotoFromFile env v.path).1.GPSDateStamp = none ∨
            (NewGeoPhotoFromFile env v.path).1.GPSLatitude = none ∨
            (NewGeoPhotoFromFile env v.path).1.GPSLatitudeRef = none ∨
            (NewGeoPhotoFromFile env v.path).1.GPSLongitude = none ∨
            (NewGeoPhotoFromFile env v.path).1.GPSLongitudeRef = none := by
          unfold AllPresent at h4
          by_contra hc
          simp only [not_or] at hc
          exact h4 ⟨hc.2.2.1, hc.2.2.2.1, hc.2.2.2.2.1, hc.2.2.2.2.2, hc.1, hc.2.1⟩
        simp [h1, h2, h3, h5]
      · simp [h1, h2, h3]
  · simp [h1]

theorem walk_eligible (env : Env) (v : Visit) (geo : GeoPhoto) (m : GeoPhotoMap)
    (h : Eligible env v geo) :
    walk env v.path v.fi v.err m =
      (Unix geo).map (fun t => (none, m.set t geo)) := by
  obtain ⟨h1, h2, h3, h4⟩ := h
  have h5 : ¬ (geo.GPSTimeStamp = none ∨ geo.GPSDateStamp = none ∨ geo.GPSLatitude = none ∨
      geo.GPSLatitudeRef = none ∨ geo.GPSLongitude = none ∨ geo.GPSLongitudeRef = none) := by
    unfold AllPresent at h4
    simp only [not_or]
    exact ⟨h4.2.2.2.2.1, h4.2.2.2.2.2, h4.1, h4.2.1, h4.2.2.1, h4.2.2.2.1⟩
  unfold walk
  simp only [h1, h2, h3, h5, ne_eq, not_true_eq_false, if_false, Bool.false_eq_true]
  cases hu : Unix geo with
  | none => rfl
  | some t => simp [Unix_int geo t hu]

theorem Eligible_unique (env : Env) (v : Visit) (geo geo' : GeoPhoto)
    (h : Eligible env v geo) (h' : Eligible env v geo') : geo = geo' := by
  have e := h.2.2.1.symm.trans h'.2.2.1
  exact (Prod.mk.inj e).1

/-- After the walk over `vs` from `m0`, each key either still holds what `m0` held, no
eligible visit having that timestamp, or holds the record of the last eligible visit with
that timestamp. -/
theorem walkVisits_lookup (env : Env) (vs : List Visit) : ∀ (m0 m : GeoPhotoMap),
    walkVisits env vs m0 = some m → ∀ k : Int,
      (m k = m0 k ∧ ∀ w ∈ vs, ∀ geo, Eligible env w geo → Unix geo ≠ some k) ∨
      (∃ (pre : List Visit) (v : Visit) (post : List Visit) (geo : GeoPhoto),
        vs = pre ++ v :: post ∧ Eligible env v geo ∧ Unix geo = some k ∧
        (∀ w ∈ post, ∀ geo', Eligible env w geo' → Unix geo' ≠ some k) ∧ m k = some geo) := by
  induction vs with
  | nil =>
    intro m0 m h k
    simp only [walkVisits, Option.some.injEq] at h
    exact Or.inl ⟨by rw [h], by simp⟩
  | cons v vs ih =>
    intro m0 m h k
    by_cases he : ∃ geo, Eligible env v geo
    · obtain ⟨geo, hg⟩ := he
      rw [walkVisits, walk_eligible env v geo m0 hg] at h
      cases hu : Unix geo with
      | none => simp [hu] at h
      | some t =>
        simp only [hu, Option.map_some'] at h
        rcases ih _ m h k with ⟨hk, hno⟩ | ⟨pre, w, post, geo', hvs, hw, hwu, hpost, hmk⟩
        · by_cases hkt : k = t
          · refine Or.inr ⟨[], v, vs, geo, rfl, hg, hkt ▸ hu, hno, ?_⟩
            rw [hk]; simp [GeoPhotoMap.set, hkt]
          · refine Or.inl ⟨?_, ?_⟩
            · rw [hk]; simp [GeoPhotoMap.set, hkt]
            · intro w hw geo' hg'
              rcases List.mem_cons.mp hw with rfl | hw
              · rw [← Eligible_unique env w geo geo' hg hg', hu]
                intro hc
                exact hkt (Option.some.inj hc).symm
              · exact hno w hw geo' hg'
        · exact Or.inr ⟨v :: pre, w, post, geo', by rw [hvs]; rfl, hw, hwu, hpost, hmk⟩
    · have hs := walk_skip env v m0 (fun geo hg => he ⟨geo, hg⟩)
      rw [walkVisits, hs] at h
      rcases ih _ m h k with ⟨hk, hno⟩ | ⟨pre, w, post, geo', hvs, hw, hwu, hpost, hmk⟩
      · refine Or.inl ⟨hk, ?_⟩
        intro w hw geo' hg'
        rcases List.mem_cons.mp hw with rfl | hw
        · exact absurd ⟨geo', hg'⟩ he
        · exact hno w hw geo' hg'
      · exact Or.inr ⟨v :: pre, w, post, geo', by rw [hvs]; rfl, hw, hwu, hpost, hmk⟩

/-- The walk returns a map when `Unix` is defined on every eligible visit. -/
theorem walkVisits_returns (env : Env) (vs : List Visit) : ∀ (m0 : GeoPhotoMap),
    (∀ v ∈ vs, ∀ geo, Eligible env v geo → (Unix geo).isSome) →
    ∃ m, walkVisits env vs m0 = some m := by
  induction vs with
  | nil => intro m0 _; exact ⟨m0, rfl⟩
  | cons v vs ih =>
    intro m0 hdef
    have hrest : ∀ w ∈ vs, ∀ geo, Eligible env w geo → (Unix geo).isSome :=
      fun w hw => hdef w (List.mem_cons_of_mem _ hw)
    by_cases he : ∃ geo, Eligible env v geo
    · obtain ⟨geo, hg⟩ := he
      obtain ⟨t, ht⟩ := Option.isSome_iff_exists.mp (hdef v (List.mem_cons_self _ _) geo hg)
      rw [walkVisits, walk_eligible env v geo m0 hg, ht]
      exact ih _ hrest
    · rw [walkVisits, walk_skip env v m0 (fun geo hg => he ⟨geo, hg⟩)]
      exact ih _ hrest

theorem Unix_samplePhoto : Unix samplePhoto = some 1686839400 := by
  have e0 : (((14 : Int) : ℚ) / ((1 : Int) : ℚ)).num = 14 :=
    Rat.num_div_eq_of_coprime (by decide) (by decide)
  have e1 : (((30 : Int) : ℚ) / ((1 : Int) : ℚ)).num = 30 :=
    Rat.num_div_eq_of_coprime (by decide) (by decide)
  have e2 : (((0 : Int) : ℚ) / ((1 : Int) : ℚ)).num = 0 :=
    Rat.num_div_eq_of_coprime (by decide) (by decide)
  rw [Unix_present samplePhoto (.ratVal [(14, 1), (30, 1), (0, 1)])
    (.stringVal "2023:06:15") "2023:06:15" "2023".toList "06".toList "15".toList []
    _ _ _ rfl rfl rfl (by decide) rfl rfl rfl, e0, e1, e2]
  decide

theorem Unix_samplePhotoSouth : Unix samplePhotoSouth = some 1686839400 := Unix_samplePhoto

theorem Unix_sampleShortDate : Unix sampleShortDate = none := by
  have hs : Split "2023:06".data ':' = ["2023".toList, "06".toList] := by decide
  simp [Unix, sampleShortDate, samplePhoto, Tag.StringVal, hs]

theorem sampleEnv_files :
    NewGeoPhotoFromFile sampleEnv "photos/a.jpg" = (samplePhoto, none) ∧
    NewGeoPhotoFromFile sampleEnv "photos/b.jpg" = (sampleCoordsOnly, none) ∧
    NewGeoPhotoFromFile sampleEnv "photos/notes.txt" = (GeoPhoto.zero, some "no exif") ∧
    NewGeoPhotoFromFile sampleEnv "photos/locked.jpg" = (GeoPhoto.zero, some "open failed") := by
  refine ⟨?_, ?_, ?_, ?_⟩ <;> decide

theorem sampleEnv_eligible (v : Visit) (hv : v ∈ sampleEnv.Walk "photos") (geo : GeoPhoto) :
    Eligible sampleEnv v geo ↔ (v = ⟨"photos/a.jpg", ⟨false⟩, none⟩ ∧ geo = samplePhoto) := by
  have hw : sampleEnv.Walk "photos" =
      [⟨"photos", ⟨true⟩, none⟩, ⟨"photos/a.jpg", ⟨false⟩, none⟩, ⟨"photos/b.jpg", ⟨false⟩, none⟩,
       ⟨"photos/notes.txt", ⟨false⟩, none⟩, ⟨"photos/locked.jpg", ⟨false⟩, none⟩] := by decide
  rw [hw] at hv
  simp only [List.mem_cons, List.mem_singleton, List.not_mem_nil, or_false] at hv
  obtain ⟨f1, f2, f3, f4⟩ := sampleEnv_files
  have hp : AllPresent samplePhoto := by decide
  have hc : ¬ AllPresent sampleCoordsOnly := by decide
  rcases hv with rfl | rfl | rfl | rfl | rfl
  · simp [Eligible]
  · constructor
    · rintro ⟨_, _, h3, _⟩
      rw [f1] at h3
      exact ⟨rfl, (Prod.mk.inj h3).1.symm⟩
    · rintro ⟨_, rfl⟩
      exact ⟨rfl, rfl, f1, hp⟩
  · constructor
    · rintro ⟨_, _, h3, h4⟩
      rw [f2] at h3
      rw [← (Prod.mk.inj h3).1] at h4
      exact absurd h4 hc
    · rintro ⟨h, _⟩
      exact absurd h (by decide)
  · constructor
    · rintro ⟨_, _, h3, _⟩
      rw [f3] at h3
      exact absurd (Prod.mk.inj h3).2 (by decide)
    · rintro ⟨h, _⟩
      exact absurd h (by decide)
  · constructor
    · rintro ⟨_, _, h3, _⟩
      rw [f4] at h3
      exact absurd (Prod.mk.inj h3).2 (by decide)
    · rintro ⟨h, _⟩
      exact absurd h (by decide)

theorem sampleEnv_defined : ∀ v ∈ sampleEnv.Walk "photos", ∀ geo,
    Eligible sampleEnv v geo → (Unix geo).isSome := by
  intro v hv geo hg
  obtain ⟨_, rfl⟩ := (sampleEnv_eligible v hv geo).mp hg
  rw [Unix_samplePhoto]; rfl

theorem sampleEnv_stamps (k : Int) :
    (∃ v ∈ sampleEnv.Walk "photos", ∃ geo, Eligible sampleEnv v geo ∧ Unix geo = some k) ↔
      k = 1686839400 := by
  constructor
  · rintro ⟨v, hv, geo, hg, hu⟩
    obtain ⟨_, rfl⟩ := (sampleEnv_eligible v hv geo).mp hg
    rw [Unix_samplePhoto] at hu
    exact (Option.some.inj hu).symm
  · rintro rfl
    refine ⟨⟨"photos/a.jpg", ⟨false⟩, none⟩, by decide, samplePhoto, ?_, Unix_samplePhoto⟩
    exact (sampleEnv_eligible _ (by decide) _).mpr ⟨rfl, rfl⟩

/-- C5: when `Unix` is defined on every eligible visit (so that the walk does not panic),
`DirGeoPhotoData` returns a collection in which a key `k` is present if and only if some
visited entry is eligible (no traversal error, not a directory, built by
`NewGeoPhotoFromFile`, all six fields present) and has `Unix() = k`. -/
theorem DirGeoPhotoData_keys (env : Env) (dir : String) (g : GeoPhotoMap)
    (hdef : ∀ v ∈ env.Walk dir, ∀ geo, Eligible env v geo → (Unix geo).isSome) :
    ∃ m, DirGeoPhotoData env dir g = some m ∧
      ∀ k : Int, (m k).isSome ↔
        ∃ v ∈ env.Walk dir, ∃ geo, Eligible env v geo ∧ Unix geo = some k := by
  obtain ⟨m, hm⟩ := walkVisits_returns env (env.Walk dir) GeoPhotoMap.empty hdef
  refine ⟨m, hm, fun k => ?_⟩
  rcases walkVisits_lookup env (env.Walk dir) _ m hm k with
    ⟨hk, hno⟩ | ⟨pre, v, post, geo, hvs, hv, hu, _, hmk⟩
  · constructor
    · intro h
      rw [hk] at h
      exact absurd h (by simp [GeoPhotoMap.empty])
    · rintro ⟨v, hv, geo, hg, hu⟩
      exact absurd hu (hno v hv geo hg)
  · constructor
    · intro _
      exact ⟨v, by rw [hvs]; simp, geo, hv, hu⟩
    · intro _
      rw [hmk]; rfl

theorem DirGeoPhotoData_keys_witness :
    ∃ m, DirGeoPhotoData sampleEnv "photos" GeoPhotoMap.empty = some m ∧
      ∀ k : Int, (m k).isSome ↔ k = 1686839400 := by
  obtain ⟨m, hm, hk⟩ :=
    DirGeoPhotoData_keys sampleEnv "photos" GeoPhotoMap.empty sampleEnv_defined
  exact ⟨m, hm, fun k => (hk k).trans (sampleEnv_stamps k)⟩

theorem last_unique {α : Type} (P : α → Prop) : ∀ (a c : List α) (x y : α) (b d : List α),
    a ++ x :: b = c ++ y :: d → P x → P y → (∀ w ∈ b, ¬ P w) → (∀ w ∈ d, ¬ P w) → x = y := by
  intro a
  induction a with
  | nil =>
    intro c x y b d h _ py hb _
    cases c with
    | nil => exact (List.cons.inj h).1
    | cons c0 cs =>
      have hb' : b = cs ++ y :: d := (List.cons.inj h).2
      exact absurd py (hb y (by rw [hb']; simp))
  | cons a0 as ih =>
    intro c x y b d h px py hb hd
    cases c with
    | nil =>
      have hd' : as ++ x :: b = d := (List.cons.inj h).2
      exact absurd px (hd x (by rw [← hd']; simp))
    | cons c0 cs => exact ih cs x y b d (List.cons.inj h).2 px py hb hd

/-- C6: when `Unix` is defined on every eligible visit, `DirGeoPhotoData` returns a collection
in which the record stored at any key `k` is the record of the last visited eligible entry
whose timestamp is `k`; in particular, of two eligible entries with the same timestamp the
later one is the record kept at that key. -/
theorem DirGeoPhotoData_last_wins (env : Env) (dir : String) (g : GeoPhotoMap)
    (hdef : ∀ v ∈ env.Walk dir, ∀ geo, Eligible env v geo → (Unix geo).isSome) :
    ∃ m, DirGeoPhotoData env dir g = some m ∧
      (∀ (k : Int) (r : GeoPhoto), m k = some r →
        ∃ (pre : List Visit) (v : Visit) (post : List Visit),
          env.Walk dir = pre ++ v :: post ∧ Eligible env v r ∧ Unix r = some k ∧
          ∀ w ∈ post, ∀ geo, Eligible env w geo → Unix geo ≠ some k) ∧
      (∀ (pre : List Visit) (v1 : Visit) (mid : List Visit) (v2 : Visit) (post : List Visit)
          (r1 r2 : GeoPhoto) (k : Int),
        env.Walk dir = pre ++ v1 :: (mid ++ v2 :: post) →
        Eligible env v1 r1 → Eligible env v2 r2 → Unix r1 = some k → Unix r2 = some k →
        (∀ w ∈ post, ∀ geo, Eligible env w geo → Unix geo ≠ some k) → m k = some r2) := by
  obtain ⟨m, hm⟩ := walkVisits_returns env (env.Walk dir) GeoPhotoMap.empty hdef
  refine ⟨m, hm, ?_, ?_⟩
  · intro k r hr
    rcases walkVisits_lookup env (env.Walk dir) _ m hm k with
      ⟨hk, _⟩ | ⟨pre, v, post, geo, hvs, hv, hu, hpost, hmk⟩
    · rw [hr] at hk
      exact absurd hk (by simp [GeoPhotoMap.empty])
    · rw [hr] at hmk
      cases hmk
      exact ⟨pre, v, post, hvs, hv, hu, hpost⟩
  · intro pre v1 mid v2 post r1 r2 k hvs _ h2 _ hu2 hpost
    have hvs' : env.Walk dir = (pre ++ v1 :: mid) ++ v2 :: post := by
      rw [hvs]; simp
    rcases walkVisits_lookup env (env.Walk dir) _ m hm k with
      ⟨_, hno⟩ | ⟨pre', v', post', geo', hvs2, hv', hu', hpost', hmk⟩
    · exact absurd hu2 (hno v2 (by rw [hvs']; simp) r2 h2)
    · have e : v2 = v' :=
        last_unique (fun w => ∃ geo, Eligible env w geo ∧ Unix geo = some k)
          (pre ++ v1 :: mid) pre' v2 v' post post' (hvs'.symm.trans hvs2) ⟨r2, h2, hu2⟩
          ⟨geo', hv', hu'⟩ (fun w hw ⟨geo, hg, hu⟩ => hpost w hw geo hg hu)
          (fun w hw ⟨geo, hg, hu⟩ => hpost' w hw geo hg hu)
      subst e
      rw [hmk, Eligible_unique env v2 geo' r2 hv' h2]

theorem collisionEnv_files :
    collisionEnv.Walk "photos" =
      [⟨"photos", ⟨true⟩, none⟩, ⟨"photos/a.jpg", ⟨false⟩, none⟩,
       ⟨"photos/c.jpg", ⟨false⟩, none⟩] ∧
    NewGeoPhotoFromFile collisionEnv "photos/a.jpg" = (samplePhoto, none) ∧
    NewGeoPhotoFromFile collisionEnv "photos/c.jpg" = (samplePhotoSouth, none) := by
  refine ⟨?_, ?_, ?_⟩ <;> decide

theorem collisionEnv_defined : ∀ v ∈ collisionEnv.Walk "photos", ∀ geo,
    Eligible collisionEnv v geo → (Unix geo).isSome := by
  obtain ⟨hw, f1, f2⟩ := collisionEnv_files
  intro v hv geo hg
  rw [hw] at hv
  simp only [List.mem_cons, List.mem_singleton, List.not_mem_nil, or_false] at hv
  obtain ⟨_, h2, h3, _⟩ := hg
  rcases hv with rfl | rfl | rfl
  · exact absurd h2 (by decide)
  · rw [f1] at h3
    rw [← (Prod.mk.inj h3).1, Unix_samplePhoto]; rfl
  · rw [f2] at h3
    rw [← (Prod.mk.inj h3).1, Unix_samplePhotoSouth]; rfl

theorem DirGeoPhotoData_last_wins_witness :
    samplePhoto ≠ samplePhotoSouth ∧
    ∃ m, DirGeoPhotoData collisionEnv "photos" GeoPhotoMap.empty = some m ∧
      m 1686839400 = some samplePhotoSouth := by
  obtain ⟨hw, f1, f2⟩ := collisionEnv_files
  obtain ⟨m, hm, _, hlast⟩ :=
    DirGeoPhotoData_last_wins collisionEnv "photos" GeoPhotoMap.empty collisionEnv_defined
  refine ⟨by decide, m, hm, ?_⟩
  exact hlast [⟨"photos", ⟨true⟩, none⟩] ⟨"photos/a.jpg", ⟨false⟩, none⟩ []
    ⟨"photos/c.jpg", ⟨false⟩, none⟩ [] samplePhoto samplePhotoSouth 1686839400 hw
    ⟨rfl, rfl, f1, by decide⟩ ⟨rfl, rfl, f2, by decide⟩ Unix_samplePhoto Unix_samplePhotoSouth
    (by simp)

theorem sampleEnv_result (g : GeoPhotoMap) :
    DirGeoPhotoData sampleEnv "photos" g =
      some (GeoPhotoMap.empty.set 1686839400 samplePhoto) := by
  obtain ⟨m, hm⟩ := walkVisits_returns sampleEnv (sampleEnv.Walk "photos") GeoPhotoMap.empty
    sampleEnv_defined
  have e : m = GeoPhotoMap.empty.set 1686839400 samplePhoto := by
    funext k
    rcases walkVisits_lookup sampleEnv (sampleEnv.Walk "photos") _ m hm k with
      ⟨hk, hno⟩ | ⟨pre, v, post, geo, hvs, hv, hu, _, hmk⟩
    · have hne : k ≠ 1686839400 := fun hk' =>
        (sampleEnv_stamps k).mpr hk' |>.elim fun v ⟨hv, geo, hg, hu⟩ => hno v hv geo hg hu
      rw [hk]; simp [GeoPhotoMap.set, GeoPhotoMap.empty, hne]
    · have hk' : k = 1686839400 :=
        (sampleEnv_stamps k).mp ⟨v, by rw [hvs]; simp, geo, hv, hu⟩
      obtain ⟨_, rfl⟩ := (sampleEnv_eligible v (by rw [hvs]; simp) geo).mp hv
      rw [hmk]; simp [GeoPhotoMap.set, hk']
  rw [← e]
  exact hm

/-- C7: `walk` inserts a record only when none of its six fields is absent, so a collection
whose records all have their six fields keeps that property through every call of `walk`;
it therefore holds after every step of the traversal and in the collection
`DirGeoPhotoData` returns. -/
theorem walk_keeps_complete (env : Env) :
    (∀ (v : Visit) (m0 m1 : GeoPhotoMap) (e : Option Error),
      (∀ k r, m0 k = some r → AllPresent r) →
      walk env v.path v.fi v.err m0 = some (e, m1) → ∀ k r, m1 k = some r → AllPresent r) ∧
    (∀ (dir : String) (n : Nat) (m : GeoPhotoMap),
      walkVisits env ((env.Walk dir).take n) GeoPhotoMap.empty = some m →
      ∀ k r, m k = some r → AllPresent r) ∧
    (∀ (dir : String) (g m : GeoPhotoMap), DirGeoPhotoData env dir g = some m →
      ∀ k r, m k = some r → AllPresent r) := by
  have key : ∀ (vs : List Visit) (m : GeoPhotoMap),
      walkVisits env vs GeoPhotoMap.empty = some m → ∀ k r, m k = some r → AllPresent r := by
    intro vs m hm k r hr
    rcases walkVisits_lookup env vs _ m hm k with ⟨hk, _⟩ | ⟨_, v, _, geo, _, hv, _, _, hmk⟩
    · rw [hr] at hk
      exact absurd hk (by simp [GeoPhotoMap.empty])
    · rw [hr] at hmk
      cases hmk
      exact hv.2.2.2
  refine ⟨?_, fun dir n m => key _ m, fun dir _ m => key _ m⟩
  intro v m0 m1 e h0 hw k r hr
  by_cases he : ∃ geo, Eligible env v geo
  · obtain ⟨geo, hg⟩ := he
    rw [walk_eligible env v geo m0 hg] at hw
    cases hu : Unix geo with
    | none => simp [hu] at hw
    | some t =>
      simp only [hu, Option.map_some', Option.some.injEq, Prod.mk.injEq] at hw
      rw [← hw.2] at hr
      unfold GeoPhotoMap.set at hr
      split at hr
      · cases hr; exact hg.2.2.2
      · exact h0 k r hr
  · rw [walk_skip env v m0 (fun geo hg => he ⟨geo, hg⟩)] at hw
    simp only [Option.some.injEq, Prod.mk.injEq] at hw
    rw [← hw.2] at hr
    exact h0 k r hr

theorem walk_keeps_complete_witness :
    DirGeoPhotoData sampleEnv "photos" GeoPhotoMap.empty =
      some (GeoPhotoMap.empty.set 1686839400 samplePhoto) ∧
    AllPresent samplePhoto :=
  ⟨sampleEnv_result _,
   (walk_keeps_complete sampleEnv).2.2 "photos" GeoPhotoMap.empty _ (sampleEnv_result _)
     1686839400 samplePhoto (by simp [GeoPhotoMap.set])⟩

/-- C8: `DirGeoPhotoData` starts from a new empty collection. Whatever the global held before,
the result is the one obtained from an empty global, so a second call over the same
traversal returns a collection with the same keys and equal `StringDegrees` values. -/
theorem DirGeoPhotoData_fresh (env : Env) (dir : String) (g : GeoPhotoMap) :
    DirGeoPhotoData env dir g = DirGeoPhotoData env dir GeoPhotoMap.empty ∧
    ∀ m1, DirGeoPhotoData env dir g = some m1 →
      ∃ m2, DirGeoPhotoData env dir m1 = some m2 ∧
        (∀ k, (m2 k).isSome ↔ (m1 k).isSome) ∧
        ∀ k r1 r2, m1 k = some r1 → m2 k = some r2 → StringDegrees r1 = StringDegrees r2 := by
  refine ⟨rfl, fun m1 h1 => ⟨m1, h1, fun _ => Iff.rfl, ?_⟩⟩
  intro k r1 r2 h h'
  rw [h] at h'
  cases h'
  rfl

theorem DirGeoPhotoData_fresh_witness :
    DirGeoPhotoData sampleEnv "photos" (GeoPhotoMap.empty.set 7 GeoPhoto.zero) =
      DirGeoPhotoData sampleEnv "photos" GeoPhotoMap.empty ∧
    ∃ m2, DirGeoPhotoData sampleEnv "photos"
        (GeoPhotoMap.empty.set 1686839400 samplePhoto) = some m2 ∧
      ∀ k, (m2 k).isSome ↔ ((GeoPhotoMap.empty.set 1686839400 samplePhoto) k).isSome :=
  ⟨(DirGeoPhotoData_fresh sampleEnv "photos" (GeoPhotoMap.empty.set 7 GeoPhoto.zero)).1,
   let ⟨m2, h2, hk, _⟩ :=
     (DirGeoPhotoData_fresh sampleEnv "photos" (GeoPhotoMap.empty.set 7 GeoPhoto.zero)).2 _
       (sampleEnv_result _)
   ⟨m2, h2, hk⟩⟩

/-- C9: a regular file that decodes to a record with all six tags and the date stamp
"2023:06" makes `Unix` panic on the missing third field; `walk` does not return for that
entry and `DirGeoPhotoData` fails instead of returning a collection. -/
theorem DirGeoPhotoData_short_date_panics :
    AllPresent sampleShortDate ∧ Unix sampleShortDate = none ∧
    walk shortDateEnv "photos/d.jpg" ⟨false⟩ none GeoPhotoMap.empty = none ∧
    DirGeoPhotoData shortDateEnv "photos" GeoPhotoMap.empty = none := by
  have hw : shortDateEnv.Walk "photos" =
      [⟨"photos", ⟨true⟩, none⟩, ⟨"photos/d.jpg", ⟨false⟩, none⟩] := by decide
  have hf : NewGeoPhotoFromFile shortDateEnv "photos/d.jpg" = (sampleShortDate, none) := by
    decide
  have h1 : walk shortDateEnv "photos" ⟨true⟩ none GeoPhotoMap.empty =
      some (none, GeoPhotoMap.empty) := by simp [walk]
  have h2 : walk shortDateEnv "photos/d.jpg" ⟨false⟩ none GeoPhotoMap.empty = none := by
    have h := walk_eligible shortDateEnv ⟨"photos/d.jpg", ⟨false⟩, none⟩ sampleShortDate
      GeoPhotoMap.empty ⟨rfl, rfl, hf, by decide⟩
    rw [Unix_sampleShortDate] at h
    exact h
  refine ⟨by decide, Unix_sampleShortDate, h2, ?_⟩
  unfold DirGeoPhotoData
  rw [hw]
  simp only [walkVisits, h1, h2]

/-! ## Further properties of the coordinates -/

/-- C13 as stated fails at the zero triple: with reference "N" the result is 0, which is
not strictly positive. -/
theorem sexToDec_zero_not_positive :
    sexToDec 0 0 0 "N" = 0 ∧ ¬ (0 < sexToDec 0 0 0 "N") := by
  have e : sexToDec 0 0 0 "N" = 0 := by simp [sexToDec, sexToDecState]
  exact ⟨e, by rw [e]; exact lt_irrefl 0⟩

/-- C13 (amended): for non-negative `d`, `m`, `s` and reference "N" or "E", `sexToDec` returns
`d + m/60 + s/3600`, which is non-negative, and strictly positive exactly when `d`, `m`, `s`
are not all zero; with reference "S" or "W" it returns the negation of that sum. -/
theorem sexToDec_sign (d m s : ℚ) (dir : String) (hd : 0 ≤ d) (hm : 0 ≤ m) (hs : 0 ≤ s) :
    ((dir = "N" ∨ dir = "E") →
      sexToDec d m s dir = d + m / 60 + s / 3600 ∧ 0 ≤ sexToDec d m s dir ∧
      (0 < sexToDec d m s dir ↔ (0 < d ∨ 0 < m ∨ 0 < s))) ∧
    ((dir = "S" ∨ dir = "W") → sexToDec d m s dir = -(d + m / 60 + s / 3600)) := by
  constructor
  · intro h
    have hne : ¬ (dir = "S" ∨ dir = "W") := by
      rcases h with rfl | rfl <;> decide
    have e : sexToDec d m s dir = d + m / 60 + s / 3600 := by
      simp only [sexToDec, sexToDecState, if_neg hne]
    have hm' : 0 ≤ m / 60 := div_nonneg hm (by norm_num)
    have hs' : 0 ≤ s / 3600 := div_nonneg hs (by norm_num)
    refine ⟨e, by rw [e]; linarith, ?_⟩
    rw [e]
    constructor
    · intro hpos
      by_contra hc
      simp only [not_or, not_lt] at hc
      have d0 : d = 0 := le_antisymm hc.1 hd
      have m0 : m = 0 := le_antisymm hc.2.1 hm
      have s0 : s = 0 := le_antisymm hc.2.2 hs
      rw [d0, m0, s0] at hpos
      norm_num at hpos
    · rintro (h1 | h1 | h1)
      · linarith
      · have : 0 < m / 60 := div_pos h1 (by norm_num)
        linarith
      · have : 0 < s / 3600 := div_pos h1 (by norm_num)
        linarith
  · intro h
    simp only [sexToDec, sexToDecState, if_pos h]

theorem sexToDec_sign_witness :
    sexToDec 0 0 0 "N" = 0 + 0 / 60 + 0 / 3600 ∧ (0 : ℚ) ≤ sexToDec 0 0 0 "N" ∧
    0 < sexToDec 37 48 (4536 / 100) "E" ∧
    sexToDec 122 25 (852 / 100) "W" = -(122 + 25 / 60 + (852 / 100) / 3600) :=
  ⟨((sexToDec_sign 0 0 0 "N" (le_refl 0) (le_refl 0) (le_refl 0)).1 (Or.inl rfl)).1,
   ((sexToDec_sign 0 0 0 "N" (le_refl 0) (le_refl 0) (le_refl 0)).1 (Or.inl rfl)).2.1,
   ((sexToDec_sign 37 48 (4536 / 100) "E" (by norm_num) (by norm_num) (by norm_num)).1
      (Or.inr rfl)).2.2.mpr (Or.inl (by norm_num)),
   (sexToDec_sign 122 25 (852 / 100) "W" (by norm_num) (by norm_num) (by norm_num)).2
      (Or.inr rfl)⟩

/-- C14 as stated fails: with all four fields present but a latitude tag of only two
components, `StringDegrees` panics instead of returning a string. -/
theorem StringDegrees_two_components :
    sampleTwoComponents.GPSLatitude ≠ none ∧ sampleTwoComponents.GPSLatitudeRef ≠ none ∧
    sampleTwoComponents.GPSLongitude ≠ none ∧ sampleTwoComponents.GPSLongitudeRef ≠ none ∧
    StringDegrees sampleTwoComponents = none := by
  refine ⟨by decide, by decide, by decide, by decide, ?_⟩
  simp [StringDegrees, sampleTwoComponents, samplePhoto, Tag.Rat]

/-- C14 (amended): `StringDegrees` panics whenever one of the four fields latitude, latitude
reference, longitude, longitude reference is missing, and it returns a string exactly when
all four are present, the latitude and longitude tags each yield three rational components
and the two reference tags carry text. -/
theorem StringDegrees_defined (geo : GeoPhoto) :
    ((geo.GPSLatitude = none ∨ geo.GPSLatitudeRef = none ∨ geo.GPSLongitude = none ∨
        geo.GPSLongitudeRef = none) → StringDegrees geo = none) ∧
    ((StringDegrees geo).isSome ↔
      ∃ lat latRef lon lonRef : Tag,
        geo.GPSLatitude = some lat ∧ geo.GPSLatitudeRef = some latRef ∧
        geo.GPSLongitude = some lon ∧ geo.GPSLongitudeRef = some lonRef ∧
        ThreeRationals lat ∧ IsText latRef ∧ ThreeRationals lon ∧ IsText lonRef) := by
  have key : (StringDegrees geo).isSome →
      ∃ lat latRef lon lonRef : Tag,
        geo.GPSLatitude = some lat ∧ geo.GPSLatitudeRef = some latRef ∧
        geo.GPSLongitude = some lon ∧ geo.GPSLongitudeRef = some lonRef ∧
        ThreeRationals lat ∧ IsText latRef ∧ ThreeRationals lon ∧ IsText lonRef := by
    intro h
    obtain ⟨s, hs⟩ := Option.isSome_iff_exists.mp h
    simp only [StringDegrees, Option.bind_eq_bind, Option.bind_eq_some] at hs
    obtain ⟨lat, hlat, a0, h0, a1, h1, a2, h2, latRef, hlr, r, hr, lon, hlon, b0, g0, b1,
      g1, b2, g2, lonRef, hnr, r', hr', _⟩ := hs
    exact ⟨lat, latRef, lon, lonRef, hlat, hlr, hlon, hnr,
      ⟨by rw [h0]; rfl, by rw [h1]; rfl, by rw [h2]; rfl⟩, by unfold IsText; rw [hr]; rfl,
      ⟨by rw [g0]; rfl, by rw [g1]; rfl, by rw [g2]; rfl⟩, by unfold IsText; rw [hr']; rfl⟩
  constructor
  · intro hmiss
    cases hsd : StringDegrees geo with
    | none => rfl
    | some s =>
      obtain ⟨lat, latRef, lon, lonRef, hlat, hlr, hlon, hnr, _⟩ := key (by rw [hsd]; rfl)
      rw [hlat, hlr, hlon, hnr] at hmiss
      simp at hmiss
  · constructor
    · exact key
    · rintro ⟨lat, latRef, lon, lonRef, hlat, hlr, hlon, hnr, ⟨h0, h1, h2⟩, hr, ⟨g0, g1, g2⟩,
        hr'⟩
      obtain ⟨a0, h0⟩ := Option.isSome_iff_exists.mp h0
      obtain ⟨a1, h1⟩ := Option.isSome_iff_exists.mp h1
      obtain ⟨a2, h2⟩ := Option.isSome_iff_exists.mp h2
      obtain ⟨b0, g0⟩ := Option.isSome_iff_exists.mp g0
      obtain ⟨b1, g1⟩ := Option.isSome_iff_exists.mp g1
      obtain ⟨b2, g2⟩ := Option.isSome_iff_exists.mp g2
      obtain ⟨r, hr⟩ := Option.isSome_iff_exists.mp hr
      obtain ⟨r', hr'⟩ := Option.isSome_iff_exists.mp hr'
      rw [StringDegrees_eq geo lat latRef lon lonRef a0 a1 a2 b0 b1 b2 r r' hlat hlr hlon hnr
        h0 h1 h2 hr g0 g1 g2 hr']
      rfl

theorem StringDegrees_defined_witness :
    StringDegrees sampleNoLatitudeRef = none ∧ (StringDegrees samplePhoto).isSome :=
  ⟨(StringDegrees_defined sampleNoLatitudeRef).1 (Or.inr (Or.inl rfl)),
   (StringDegrees_defined samplePhoto).2.mpr
     ⟨.ratVal [(37, 1), (48, 1), (4536, 100)], .stringVal "N",
      .ratVal [(122, 1), (25, 1), (852, 100)], .stringVal "W", rfl, rfl, rfl, rfl,
      ⟨by simp [Tag.Rat], by simp [Tag.Rat], by simp [Tag.Rat]⟩, by simp [IsText, Tag.StringVal],
      ⟨by simp [Tag.Rat], by simp [Tag.Rat], by simp [Tag.Rat]⟩,
      by simp [IsText, Tag.StringVal]⟩⟩

/-- C16: whenever `StringDegrees` returns a string, `StreetViewUrl` returns the fixed address
with that string placed after "location=" and followed by the size 640x640, the field of
view 120 and the heading 0. -/
theorem StreetViewUrl_template (geo : GeoPhoto) (s : String) (h : StringDegrees geo = some s) :
    StreetViewUrl geo = some ("https://maps.googleapis.com/maps/api/streetview?location=" ++
      s ++ "&size=640x640&fov=120&heading=0&sensor=false") := by
  simp only [StreetViewUrl, h, Option.bind_eq_bind, Option.some_bind, Option.pure_def,
    Option.some.injEq]
  rfl

theorem StringDegrees_samplePhoto :
    StringDegrees samplePhoto = some "37.812600,-122.419033" := by
  rw [StringDegrees_eq samplePhoto (.ratVal [(37, 1), (48, 1), (4536, 100)]) (.stringVal "N")
      (.ratVal [(122, 1), (25, 1), (852, 100)]) (.stringVal "W")
      ((37 : Int) / (1 : Int)) ((48 : Int) / (1 : Int)) ((4536 : Int) / (100 : Int))
      ((122 : Int) / (1 : Int)) ((25 : Int) / (1 : Int)) ((852 : Int) / (100 : Int)) "N" "W"
      rfl rfl rfl rfl rfl rfl rfl rfl rfl rfl rfl rfl, sample_latitude, sample_longitude]
  unfold FloatString
  rw [floatChars_div _ _ _ (by decide) (by decide), floatChars_div _ _ _ (by decide) (by decide)]
  decide

theorem StreetViewUrl_template_witness :
    StreetViewUrl samplePhoto = some
      "https://maps.googleapis.com/maps/api/streetview?location=37.812600,-122.419033&size=640x640&fov=120&heading=0&sensor=false" :=
  (StreetViewUrl_template samplePhoto _ StringDegrees_samplePhoto).trans (by decide)

/-! ## Building a record from a file -/

/-- C15: `NewGeoPhotoFromFile` returns an error exactly when `os.Open` fails or `exif.Decode`
fails on the opened file, and then returns the empty record with that error; otherwise it
returns, without an error, the record `NewGeoPhotoFromExif` builds from the decoded tags, in
which each of the six fields is present exactly when the lookup of its tag succeeded. -/
theorem NewGeoPhotoFromFile_spec (env : Env) (path : String) :
    ((NewGeoPhotoFromFile env path).2 ≠ none ↔
      ((∃ e, env.Open path = .error e) ∨
        ∃ f e, env.Open path = .ok f ∧ env.Decode f = .error e)) ∧
    (∀ e, env.Open path = .error e → NewGeoPhotoFromFile env path = (GeoPhoto.zero, some e)) ∧
    (∀ f e, env.Open path = .ok f → env.Decode f = .error e →
      NewGeoPhotoFromFile env path = (GeoPhoto.zero, some e)) ∧
    (∀ f x, env.Open path = .ok f → env.Decode f = .ok x →
      NewGeoPhotoFromFile env path = (NewGeoPhotoFromExif x, none)) ∧
    (∀ x : Exif,
      ((NewGeoPhotoFromExif x).GPSLatitude.isSome ↔ (x.Get .GPSLatitude).2 = none) ∧
      ((NewGeoPhotoFromExif x).GPSLatitudeRef.isSome ↔ (x.Get .GPSLatitudeRef).2 = none) ∧
      ((NewGeoPhotoFromExif x).GPSLongitude.isSome ↔ (x.Get .GPSLongitude).2 = none) ∧
      ((NewGeoPhotoFromExif x).GPSLongitudeRef.isSome ↔ (x.Get .GPSLongitudeRef).2 = none) ∧
      ((NewGeoPhotoFromExif x).GPSTimeStamp.isSome ↔ (x.Get .GPSTimeStamp).2 = none) ∧
      ((NewGeoPhotoFromExif x).GPSDateStamp.isSome ↔ (x.Get .GPSDateStamp).2 = none)) := by
  have hget : ∀ (x : Exif) (name : FieldName),
      ((x.Get name).1.isSome ↔ (x.Get name).2 = none) := by
    intro x name
    unfold Exif.Get
    cases x.main.lookup name <;> simp
  refine ⟨?_, ?_, ?_, ?_, ?_⟩
  · unfold NewGeoPhotoFromFile
    cases ho : env.Open path with
    | error e => simp
    | ok f =>
      cases hd : env.Decode f with
      | error e => simp [hd]
      | ok x => simp [hd]
  · intro e ho
    simp [NewGeoPhotoFromFile, ho]
  · intro f e ho hd
    simp [NewGeoPhotoFromFile, ho, hd]
  · intro f x ho hd
    simp [NewGeoPhotoFromFile, ho, hd]
  · intro x
    exact ⟨hget x _, hget x _, hget x _, hget x _, hget x _, hget x _⟩

theorem NewGeoPhotoFromFile_spec_witness :
    NewGeoPhotoFromFile sampleEnv "photos/a.jpg" = (samplePhoto, none) ∧
    NewGeoPhotoFromFile sampleEnv "photos/locked.jpg" = (GeoPhoto.zero, some "open failed") ∧
    NewGeoPhotoFromFile sampleEnv "photos/notes.txt" = (GeoPhoto.zero, some "no exif") :=
  ⟨(NewGeoPhotoFromFile_spec sampleEnv "photos/a.jpg").2.2.2.1 ⟨[1]⟩ (exifOf samplePhoto)
      rfl rfl,
   (NewGeoPhotoFromFile_spec sampleEnv "photos/locked.jpg").2.1 "open failed" rfl,
   (NewGeoPhotoFromFile_spec sampleEnv "photos/notes.txt").2.2.1 ⟨[3]⟩ "no exif" rfl rfl⟩

/-! ## Date stamps that are not "YYYY:MM:DD" -/

theorem Unix_sampleEmptyDate : Unix sampleEmptyDate = none := by
  have hs : Split "".data ':' = [[]] := by decide
  simp [Unix, sampleEmptyDate, withDate, samplePhoto, Tag.StringVal, hs]

/-- C11: with both stamps present, a date stamp of fewer than three fields makes `Unix`
panic on the missing field instead of returning a value: so for the empty date stamp and for
"2023:06". -/
theorem Unix_short_date_panics :
    sampleEmptyDate.GPSTimeStamp ≠ none ∧ sampleEmptyDate.GPSDateStamp ≠ none ∧
    Unix sampleEmptyDate = none ∧
    sampleShortDate.GPSTimeStamp ≠ none ∧ sampleShortDate.GPSDateStamp ≠ none ∧
    Unix sampleShortDate = none :=
  ⟨by decide, by decide, Unix_sampleEmptyDate, by decide, by decide, Unix_sampleShortDate⟩

theorem Split_field (a rest : List Char) (ha : ':' ∉ a) :
    Split (a ++ ':' :: rest) ':' = a :: Split rest ':' := by
  induction a with
  | nil => simp [Split]
  | cons x xs ih =>
    have hx : x ≠ ':' := fun h => ha (by simp [h])
    have hxs : ':' ∉ xs := fun h => ha (List.mem_cons_of_mem _ h)
    simp only [List.cons_append, Split, if_neg hx, List.append_eq, ih hxs]

theorem Split_last (c : List Char) (hc : ':' ∉ c) : Split c ':' = [c] := by
  induction c with
  | nil => rfl
  | cons x xs ih =>
    have hx : x ≠ ':' := fun h => hc (by simp [h])
    have hxs : ':' ∉ xs := fun h => hc (List.mem_cons_of_mem _ h)
    simp only [Split, if_neg hx, ih hxs]

theorem Split_dateOfFields (a b c : List Char) (ha : ':' ∉ a) (hb : ':' ∉ b) (hc : ':' ∉ c) :
    Split (dateOfFields a b c).data ':' = [a, b, c] := by
  simp only [dateOfFields, Split_field a _ ha, Split_field b _ hb, Split_last c hc]

/-- What `Unix` computes for a date stamp of three fields. -/
theorem Unix_withDate_fields (geo : GeoPhoto) (a b c : List Char)
    (ha : ':' ∉ a) (hb : ':' ∉ b) (hc : ':' ∉ c) :
    Unix (withDate geo (dateOfFields a b c)) =
      match geo.GPSTimeStamp with
      | none => some 0
      | some ts =>
        (ts.Rat 0).bind fun r0 => (ts.Rat 1).bind fun r1 => (ts.Rat 2).bind fun r2 =>
          some (DateUnix (Atoi a).1 (monthConstants (Atoi b).1) (Atoi c).1
            (wrapI64 r0.num) (wrapI64 r1.num) (wrapI64 r2.num) .UTC) := by
  have hs := Split_dateOfFields a b c ha hb hc
  cases hts : geo.GPSTimeStamp with
  | none => simp [Unix, withDate, hts]
  | some ts => simp [Unix, withDate, hts, Tag.StringVal, hs, LoadLocation]

theorem Unix_fields_congr (geo : GeoPhoto) (a b c a' b' c' : List Char)
    (ha : ':' ∉ a) (hb : ':' ∉ b) (hc : ':' ∉ c)
    (ha' : ':' ∉ a') (hb' : ':' ∉ b') (hc' : ':' ∉ c')
    (hy : (Atoi a).1 = (Atoi a').1)
    (hm : monthConstants (Atoi b).1 = monthConstants (Atoi b').1)
    (hd : (Atoi c).1 = (Atoi c').1) :
    Unix (withDate geo (dateOfFields a b c)) = Unix (withDate geo (dateOfFields a' b' c')) := by
  rw [Unix_withDate_fields geo a b c ha hb hc, Unix_withDate_fields geo a' b' c' ha' hb' hc',
    hy, hm, hd]

theorem parseDigits_digits (l : List Char) : ∀ (acc n : Nat), parseDigits l acc = some n →
    ∀ c ∈ l, c.isDigit = true := by
  induction l with
  | nil => intro _ _ _ c hc; simp at hc
  | cons x xs ih =>
    intro acc n h c hc
    unfold parseDigits at h
    by_cases hx : x.isDigit = true
    · rw [if_pos hx] at h
      rcases List.mem_cons.mp hc with rfl | hc
      · exact hx
      · exact ih _ n h c hc
    · rw [if_neg hx] at h
      cases h

theorem leadingValue_le (cs : List Char) : ∀ n, n ≤ leadingValue cs n := by
  induction cs with
  | nil => intro n; exact le_refl n
  | cons c cs ih =>
    intro n
    unfold leadingValue
    split
    · exact le_trans (by omega) (ih _)
    · exact le_refl n

theorem parseUintLoop_rejects (cs : List Char) : ∀ n,
    (∃ c ∈ cs, c.isDigit = false) → leadingValue cs n < 18446744073709551616 →
    parseUintLoop cs n = (0, some "invalid syntax") := by
  induction cs with
  | nil => intro n h; obtain ⟨c, hc, _⟩ := h; simp at hc
  | cons c cs ih =>
    intro n hex hv
    unfold parseUintLoop
    by_cases hc : c.isDigit = false
    · rw [if_pos hc]
    · rw [if_neg hc]
      have hc' : c.isDigit = true := by simpa using hc
      unfold leadingValue at hv
      rw [if_pos hc'] at hv
      have hle := leadingValue_le cs (n * 10 + (c.toNat - 48))
      have hrest : ∃ x ∈ cs, x.isDigit = false := by
        obtain ⟨x, hx, hxd⟩ := hex
        rcases List.mem_cons.mp hx with rfl | hx
        · exact absurd hxd hc
        · exact ⟨x, hx, hxd⟩
      rw [if_neg (by omega), if_neg (by omega)]
      exact ih _ hrest hv

theorem Atoi_syntax_error (s : List Char) (h : ¬ IsDecimalText s)
    (hv : leadingValue (unsignedPart s) 0 < 18446744073709551616) : (Atoi s).1 = 0 := by
  cases s with
  | nil => rfl
  | cons c rest =>
    have hbody : unsignedPart (c :: rest) = if c = '+' ∨ c = '-' then rest else c :: rest := rfl
    rw [hbody] at hv
    have hsyn : (ParseUint (if c = '+' ∨ c = '-' then rest else c :: rest)).2 =
        some "invalid syntax" := by
      generalize hb : (if c = '+' ∨ c = '-' then rest else c :: rest) = body at hv
      cases body with
      | nil => rfl
      | cons d ds =>
        have hex : ∃ x ∈ d :: ds, x.isDigit = false := by
          by_contra hno
          simp only [not_exists, not_and, Bool.not_eq_false] at hno
          apply h
          by_cases hsign : c = '+' ∨ c = '-'
          · rw [if_pos hsign] at hb
            refine ⟨[c], d :: ds, by rw [← hb]; rfl, ?_, by simp, hno⟩
            rcases hsign with rfl | rfl <;> simp
          · rw [if_neg hsign] at hb
            exact ⟨[], d :: ds, by rw [← hb]; rfl, Or.inl rfl, by simp, hno⟩
        show (parseUintLoop (d :: ds) 0).2 = some "invalid syntax"
        rw [parseUintLoop_rejects (d :: ds) 0 hex hv]
    simp only [Atoi, hsyn, if_true]

theorem colon_free_zero : ':' ∉ ['0'] := by decide

theorem monthConstants_out (m : Int) (h : m < 1 ∨ 12 < m) : monthConstants m = 0 := by
  unfold monthConstants
  rw [if_neg (by omega), if_neg (by omega), if_neg (by omega), if_neg (by omega),
    if_neg (by omega), if_neg (by omega), if_neg (by omega), if_neg (by omega),
    if_neg (by omega), if_neg (by omega), if_neg (by omega), if_neg (by omega)]

theorem Unix_sample_fields (a b c : List Char)
    (ha : ':' ∉ a) (hb : ':' ∉ b) (hc : ':' ∉ c) :
    Unix (withDate samplePhoto (dateOfFields a b c)) =
      some (DateUnix (Atoi a).1 (monthConstants (Atoi b).1) (Atoi c).1 14 30 0 .UTC) := by
  have e0 : (((14 : Int) : ℚ) / ((1 : Int) : ℚ)).num = 14 :=
    Rat.num_div_eq_of_coprime (by decide) (by decide)
  have e1 : (((30 : Int) : ℚ) / ((1 : Int) : ℚ)).num = 30 :=
    Rat.num_div_eq_of_coprime (by decide) (by decide)
  have e2 : (((0 : Int) : ℚ) / ((1 : Int) : ℚ)).num = 0 :=
    Rat.num_div_eq_of_coprime (by decide) (by decide)
  have w0 : wrapI64 14 = 14 := by decide
  have w1 : wrapI64 30 = 30 := by decide
  have w2 : wrapI64 0 = 0 := by decide
  rw [Unix_present (withDate samplePhoto (dateOfFields a b c))
    (.ratVal [(14, 1), (30, 1), (0, 1)]) (.stringVal (dateOfFields a b c)) (dateOfFields a b c)
    a b c [] _ _ _ rfl rfl rfl (Split_dateOfFields a b c ha hb hc) rfl rfl rfl, e0, e1, e2,
    w0, w1, w2]

/-- C12 as stated fails for a field that `Atoi` rejects as out of range, with or without a
character after the digits that is not a digit: the day fields "99999999999999999999" and
"99999999999999999999x" are read as the largest `int`, not as zero, and `Unix` differs
from its value for the day field "0". -/
theorem Unix_range_error_not_zero :
    (Atoi "99999999999999999999".data).2 ≠ none ∧
    (Atoi "99999999999999999999".data).1 = 9223372036854775807 ∧
    (Atoi "99999999999999999999x".data).2 ≠ none ∧
    (Atoi "99999999999999999999x".data).1 = 9223372036854775807 ∧
    Unix (withDate samplePhoto "2023:06:99999999999999999999") = some 1685457000 ∧
    Unix (withDate samplePhoto "2023:06:99999999999999999999x") = some 1685457000 ∧
    Unix (withDate samplePhoto "2023:06:0") = some 1685543400 := by
  have e1 : "2023:06:99999999999999999999" =
      dateOfFields "2023".data "06".data "99999999999999999999".data := by decide
  have e2 : "2023:06:0" = dateOfFields "2023".data "06".data "0".data := by decide
  have e3 : "2023:06:99999999999999999999x" =
      dateOfFields "2023".data "06".data "99999999999999999999x".data := by decide
  refine ⟨by decide, by decide, by decide, by decide, ?_⟩
  rw [e1, e2, e3, Unix_sample_fields _ _ _ (by decide) (by decide) (by decide),
    Unix_sample_fields _ _ _ (by decide) (by decide) (by decide),
    Unix_sample_fields _ _ _ (by decide) (by decide) (by decide)]
  exact ⟨by decide, by decide, by decide⟩

/-- C12 (amended): in a date stamp of three fields, a year, month or day field that is not an
optional sign followed by decimal digits, and whose digits between the optional sign and the
first other character spell a number below 2^64, is treated as zero: `Unix` returns the same
result as for the date stamp in which that field is replaced by "0". -/
theorem Unix_syntax_error_zero (geo : GeoPhoto) (a b c : List Char)
    (ha : ':' ∉ a) (hb : ':' ∉ b) (hc : ':' ∉ c) :
    (¬ IsDecimalText a → leadingValue (unsignedPart a) 0 < 18446744073709551616 →
      Unix (withDate geo (dateOfFields a b c)) = Unix (withDate geo (dateOfFields ['0'] b c))) ∧
    (¬ IsDecimalText b → leadingValue (unsignedPart b) 0 < 18446744073709551616 →
      Unix (withDate geo (dateOfFields a b c)) = Unix (withDate geo (dateOfFields a ['0'] c))) ∧
    (¬ IsDecimalText c → leadingValue (unsignedPart c) 0 < 18446744073709551616 →
      Unix (withDate geo (dateOfFields a b c)) = Unix (withDate geo (dateOfFields a b ['0']))) := by
  have z : (Atoi ['0']).1 = 0 := by decide
  refine ⟨fun h hv => ?_, fun h hv => ?_, fun h hv => ?_⟩
  · exact Unix_fields_congr geo a b c ['0'] b c ha hb hc colon_free_zero hb hc
      (by rw [Atoi_syntax_error a h hv, z]) rfl rfl
  · exact Unix_fields_congr geo a b c a ['0'] c ha hb hc ha colon_free_zero hc rfl
      (by rw [Atoi_syntax_error b h hv, z]) rfl
  · exact Unix_fields_congr geo a b c a b ['0'] ha hb hc ha hb colon_free_zero rfl rfl
      (by rw [Atoi_syntax_error c h hv, z])

theorem not_decimal_20x3 : ¬ IsDecimalText "20x3".data := by
  rintro ⟨sign, digits, h, hs, _, hd⟩
  have hx : ∀ l : List Char, 'x' ∈ l → ¬ ∀ c ∈ l, c.isDigit = true := fun l hl hall =>
    absurd (hall 'x' hl) (by decide)
  rcases hs with rfl | rfl | rfl
  · exact hx digits (by rw [← List.nil_append digits, ← h]; decide) hd
  · exact absurd (List.cons.inj h).1 (by decide)
  · exact absurd (List.cons.inj h).1 (by decide)

theorem Unix_syntax_error_zero_witness :
    dateOfFields "20x3".data "06".data "15".data = "20x3:06:15" ∧
    dateOfFields "0".data "06".data "15".data = "0:06:15" ∧
    leadingValue (unsignedPart "20x3".data) 0 = 20 ∧
    Unix (withDate samplePhoto (dateOfFields "20x3".data "06".data "15".data)) =
      Unix (withDate samplePhoto (dateOfFields "0".data "06".data "15".data)) :=
  ⟨by decide, by decide, by decide,
   (Unix_syntax_error_zero samplePhoto "20x3".data "06".data "15".data
    (by decide) (by decide) (by decide)).1 not_decimal_20x3 (by decide)⟩

/-- C18: with a date stamp of three fields whose month field reads as a number outside
1..12, the lookup in `monthConstants` yields the zero month, so `Unix` returns the same result
as for the month field "0" with the same year, day and time. -/
theorem Unix_month_outside_table (geo : GeoPhoto) (a b c : List Char)
    (ha : ':' ∉ a) (hb : ':' ∉ b) (hc : ':' ∉ c)
    (hout : (Atoi b).1 < 1 ∨ 12 < (Atoi b).1) :
    Unix (withDate geo (dateOfFields a b c)) = Unix (withDate geo (dateOfFields a ['0'] c)) := by
  have z : monthConstants (Atoi ['0']).1 = 0 := by decide
  exact Unix_fields_congr geo a b c a ['0'] c ha hb hc ha colon_free_zero hc rfl
    (by rw [monthConstants_out _ hout, z]) rfl

theorem Unix_month_outside_table_witness :
    dateOfFields "2023".data "13".data "15".data = "2023:13:15" ∧
    dateOfFields "2023".data "-1".data "15".data = "2023:-1:15" ∧
    dateOfFields "2023".data "0".data "15".data = "2023:0:15" ∧
    Unix (withDate samplePhoto (dateOfFields "2023".data "13".data "15".data)) =
      Unix (withDate samplePhoto (dateOfFields "2023".data "0".data "15".data)) ∧
    Unix (withDate samplePhoto (dateOfFields "2023".data "-1".data "15".data)) =
      Unix (withDate samplePhoto (dateOfFields "2023".data "0".data "15".data)) ∧
    Unix (withDate samplePhoto (dateOfFields "2023".data "0".data "15".data)) =
      some 1671114600 ∧
    DateUnix 2022 12 15 14 30 0 .UTC = 1671114600 ∧
    DateUnix 2024 1 15 14 30 0 .UTC = 1705329000 :=
  ⟨by decide, by decide, by decide,
   Unix_month_outside_table samplePhoto "2023".data "13".data "15".data
      (by decide) (by decide) (by decide) (Or.inr (by decide)),
   Unix_month_outside_table samplePhoto "2023".data "-1".data "15".data
      (by decide) (by decide) (by decide) (Or.inl (by decide)),
   (Unix_sample_fields _ _ _ (by decide) (by decide) (by decide)).trans (by decide),
   by decide, by decide⟩

/-- C19: when both stamps are present, the time stamp yields three rational components and
the date text splits on ":" into at least three fields, `Unix` returns a value, and it returns
that same value for any other date text with the same first three fields. -/
theorem Unix_first_three_fields (geo : GeoPhoto) (ts ds : Tag) (text : String)
    (p0 p1 p2 : List Char) (rest : List (List Char)) (r0 r1 r2 : ℚ)
    (hts : geo.GPSTimeStamp = some ts) (hds : geo.GPSDateStamp = some ds)
    (htext : ds.StringVal = some text) (hsplit : Split text.toList ':' = p0 :: p1 :: p2 :: rest)
    (h0 : ts.Rat 0 = some r0) (h1 : ts.Rat 1 = some r1) (h2 : ts.Rat 2 = some r2) :
    ∃ t, Unix geo = some t ∧
      ∀ (geo' : GeoPhoto) (ds' : Tag) (text' : String) (rest' : List (List Char)),
        geo'.GPSTimeStamp = some ts → geo'.GPSDateStamp = some ds' →
        ds'.StringVal = some text' → Split text'.toList ':' = p0 :: p1 :: p2 :: rest' →
        Unix geo' = some t :=
  ⟨_, Unix_present geo ts ds text p0 p1 p2 rest r0 r1 r2 hts hds htext hsplit h0 h1 h2,
   fun geo' ds' text' rest' hts' hds' htext' hsplit' =>
     Unix_present geo' ts ds' text' p0 p1 p2 rest' r0 r1 r2 hts' hds' htext' hsplit' h0 h1 h2⟩

theorem Unix_first_three_fields_witness :
    ∃ t, Unix samplePhoto = some t ∧ Unix sampleLongDate = some t :=
  let ⟨t, ht, hall⟩ := Unix_first_three_fields samplePhoto (.ratVal [(14, 1), (30, 1), (0, 1)])
    (.stringVal "2023:06:15") "2023:06:15" "2023".data "06".data "15".data []
    ((14 : Int) / (1 : Int)) ((30 : Int) / (1 : Int)) ((0 : Int) / (1 : Int))
    rfl rfl rfl (by decide) rfl rfl rfl
  ⟨t, ht, hall sampleLongDate (.stringVal "2023:06:15:99:zz") "2023:06:15:99:zz"
    ["99".data, "zz".data] rfl rfl rfl (by decide)⟩

/-- C17: every record `walk` stores is stored under its own timestamp, so a collection in
which each key `k` holds a record `r` with `r.Unix() = k` keeps that property through every
call of `walk`; it holds after every step of the traversal and in the collection
`DirGeoPhotoData` returns. -/
theorem walk_keys_are_stamps (env : Env) :
    (∀ (v : Visit) (m0 m1 : GeoPhotoMap) (e : Option Error),
      (∀ k r, m0 k = some r → Unix r = some k) →
      walk env v.path v.fi v.err m0 = some (e, m1) → ∀ k r, m1 k = some r → Unix r = some k) ∧
    (∀ (dir : String) (n : Nat) (m : GeoPhotoMap),
      walkVisits env ((env.Walk dir).take n) GeoPhotoMap.empty = some m →
      ∀ k r, m k = some r → Unix r = some k) ∧
    (∀ (dir : String) (g m : GeoPhotoMap), DirGeoPhotoData env dir g = some m →
      ∀ k r, m k = some r → Unix r = some k) := by
  have key : ∀ (vs : List Visit) (m : GeoPhotoMap),
      walkVisits env vs GeoPhotoMap.empty = some m → ∀ k r, m k = some r → Unix r = some k := by
    intro vs m hm k r hr
    rcases walkVisits_lookup env vs _ m hm k with ⟨hk, _⟩ | ⟨_, v, _, geo, _, _, hu, _, hmk⟩
    · rw [hr] at hk
      exact absurd hk (by simp [GeoPhotoMap.empty])
    · rw [hr] at hmk
      cases hmk
      exact hu
  refine ⟨?_, fun dir n m => key _ m, fun dir _ m => key _ m⟩
  intro v m0 m1 e h0 hw k r hr
  by_cases he : ∃ geo, Eligible env v geo
  · obtain ⟨geo, hg⟩ := he
    rw [walk_eligible env v geo m0 hg] at hw
    cases hu : Unix geo with
    | none => simp [hu] at hw
    | some t =>
      simp only [hu, Option.map_some', Option.some.injEq, Prod.mk.injEq] at hw
      rw [← hw.2] at hr
      unfold GeoPhotoMap.set at hr
      split at hr
      · next hkt =>
        cases hr
        rw [hkt]; exact hu
      · exact h0 k r hr
  · rw [walk_skip env v m0 (fun geo hg => he ⟨geo, hg⟩)] at hw
    simp only [Option.some.injEq, Prod.mk.injEq] at hw
    rw [← hw.2] at hr
    exact h0 k r hr

theorem walk_keys_are_stamps_witness :
    DirGeoPhotoData sampleEnv "photos" GeoPhotoMap.empty =
      some (GeoPhotoMap.empty.set 1686839400 samplePhoto) ∧
    Unix samplePhoto = some 1686839400 :=
  ⟨sampleEnv_result _,
   (walk_keys_are_stamps sampleEnv).2.2 "photos" GeoPhotoMap.empty _ (sampleEnv_result _)
     1686839400 samplePhoto (by simp [GeoPhotoMap.set])⟩

end Geophoto
